import Mathlib

/-!
Shallow embedding of the core of a Redis-protocol server written in Rust
(RESP codec, keyed data store with streams and expiry, command dispatch,
transaction queueing, replica offset tracking), together with proofs about
the embedded functions.

Bytes are modelled as `Nat` (values 0..255 in practice), byte strings as
`List Nat`.  Machine integers are modelled as `Nat`/`Int` with explicit
bounds or wrap-arounds where the original code depends on them.  Clock
reads (`SystemTime::now`, `UNIX_EPOCH.elapsed`) are passed in as explicit
`Nat` nanosecond parameters.

The recursive byte-level functions (`Resp::parse`, `Resp::check`) walk a
cursor over a buffer; they are embedded as functions from the remaining
byte list to a result together with the bytes left over.  The Rust
recursion terminates because every recursive step consumes at least one
byte; the embedding makes this explicit with a fuel argument that strictly
dominates the input length (`parseResp`, `checkResp` supply
`length + 1` fuel, and fuel exhaustion is unreachable for them).
-/

/-- Helper turning an ASCII string literal into its byte list (used for the
byte-string literals `b"..."` of the source and for concrete test inputs). -/
def ascii (s : String) : List Nat := s.data.map Char.toNat

/-- Value of `u64::MAX` (also `usize::MAX`: the server targets 64-bit). -/
def u64Max : Nat := 18446744073709551615

/-- Modulus of `u64` arithmetic. -/
def u64Mod : Nat := 18446744073709551616

/-- Value of `i64::MAX`. -/
def i64Max : Nat := 9223372036854775807

/-- Absolute value of `i64::MIN`. -/
def i64MinAbs : Nat := 9223372036854775808

/-- ASCII decimal digit test, `u8::is_ascii_digit`. -/
def isDigit (b : Nat) : Bool := 48 ≤ b && b ≤ 57

/-- Decimal byte representation of a natural number, most significant digit
first: the byte image of `n.to_string()` for an unsigned integer. -/
def natBytes (n : Nat) : List Nat :=
  if n < 10 then [48 + n] else natBytes (n / 10) ++ [48 + n % 10]
decreasing_by exact Nat.div_lt_self (by omega) (by omega)

/-- Byte image of `i.to_string()` for a signed integer. -/
def intBytes (i : Int) : List Nat :=
  (if i < 0 then [45] else []) ++ natBytes i.natAbs

/-- Numeric value of a most-significant-first digit byte list. -/
def digitsVal (ds : List Nat) : Nat := ds.foldl (fun a d => a * 10 + (d - 48)) 0

/-- Core of the `atoi` crate semantics used by `slice_to_int`: read the
leading run of ASCII digits (ignoring anything after it), fail when there is
no digit or the value overflows the checked bound `max`. -/
def atoiCore (max : Nat) (bs : List Nat) : Option Nat :=
  let ds := bs.takeWhile isDigit
  if ds = [] then none else if digitsVal ds ≤ max then some (digitsVal ds) else none

/-- Embedding of `slice_to_int::<T>` for an unsigned `T` with maximum `max`
(`atoi` with `FromRadix10SignedChecked`): an optional sign, then the leading
digit run; a minus sign checked-subtracts so only value zero survives it. -/
def atoiU (max : Nat) (bs : List Nat) : Option Nat :=
  if bs.head? = some 45 then
    (atoiCore max bs.tail).bind (fun v => if v = 0 then some 0 else none)
  else if bs.head? = some 43 then atoiCore max bs.tail
  else atoiCore max bs

/-- Embedding of `slice_to_int::<i64>`. -/
def atoiI64 (bs : List Nat) : Option Int :=
  if bs.head? = some 45 then (atoiCore i64MinAbs bs.tail).map (fun v => -(v : Int))
  else if bs.head? = some 43 then (atoiCore i64Max bs.tail).map (fun v => (v : Int))
  else (atoiCore i64Max bs).map (fun v => (v : Int))

/-- Embedding of `str::parse::<u64>` (`u64::from_str`): optional leading
plus sign, then one or more digits making up the whole slice. -/
def parseU64Str (bs : List Nat) : Option Nat :=
  let ds := if bs.head? = some 43 then bs.tail else bs
  if ds = [] then none
  else if ds.all isDigit then
    if digitsVal ds ≤ u64Max then some (digitsVal ds) else none
  else none

/-- Test for a CRLF pair somewhere in the byte list (what
`windows(2).position(|b| b == b"\r\n")` searches for). -/
def hasCRLF : List Nat → Bool
  | [] => false
  | b :: rest => (b == 13 && rest.head? == some 10) || hasCRLF rest

/-- Embedding of `read_line`: split the buffer at the first CRLF, returning
the line before it and the bytes after it, or nothing when no CRLF occurs
(the `Incomplete` case). -/
def readLine : List Nat → Option (List Nat × List Nat)
  | [] => none
  | b :: rest =>
    if b = 13 ∧ rest.head? = some 10 then some ([], rest.tail)
    else (readLine rest).map (fun p => (b :: p.1, p.2))

/-- UTF-8 continuation byte test. -/
def utf8Cont (b : Nat) : Bool := 128 ≤ b && b ≤ 191

/-- Exact UTF-8 validity (RFC 3629, as checked by `String::from_utf8`). -/
def utf8Valid : List Nat → Bool
  | [] => true
  | b :: r =>
    if b ≤ 127 then utf8Valid r
    else if 194 ≤ b ∧ b ≤ 223 then
      match r with
      | c1 :: r2 => utf8Cont c1 && utf8Valid r2
      | _ => false
    else if b = 224 then
      match r with
      | c1 :: c2 :: r2 => (160 ≤ c1 && c1 ≤ 191) && utf8Cont c2 && utf8Valid r2
      | _ => false
    else if (225 ≤ b ∧ b ≤ 236) ∨ b = 238 ∨ b = 239 then
      match r with
      | c1 :: c2 :: r2 => utf8Cont c1 && utf8Cont c2 && utf8Valid r2
      | _ => false
    else if b = 237 then
      match r with
      | c1 :: c2 :: r2 => (128 ≤ c1 && c1 ≤ 159) && utf8Cont c2 && utf8Valid r2
      | _ => false
    else if b = 240 then
      match r with
      | c1 :: c2 :: c3 :: r2 =>
        (144 ≤ c1 && c1 ≤ 191) && utf8Cont c2 && utf8Cont c3 && utf8Valid r2
      | _ => false
    else if 241 ≤ b ∧ b ≤ 243 then
      match r with
      | c1 :: c2 :: c3 :: r2 => utf8Cont c1 && utf8Cont c2 && utf8Cont c3 && utf8Valid r2
      | _ => false
    else if b = 244 then
      match r with
      | c1 :: c2 :: c3 :: r2 =>
        (128 ≤ c1 && c1 ≤ 143) && utf8Cont c2 && utf8Cont c3 && utf8Valid r2
      | _ => false
    else false

/-- Byte-wise `to_ascii_lowercase`. -/
def lowerByte (b : Nat) : Nat := if 65 ≤ b ∧ b ≤ 90 then b + 32 else b

/-- Lowercased byte list, `slice::to_ascii_lowercase`. -/
def lowerBytes (bs : List Nat) : List Nat := bs.map lowerByte

/-- RESP frames, the `Resp` enum of `resp.rs` (`Simple`, `Bulk`, `Array`,
`Integer`, `Data`, `Null`) extended with the `Err` variant that the session
layer of `handler.rs` constructs for error replies (written with the `-`
prefix).  `Simple` and `Err` payloads are the byte lists of the Rust
strings. -/
inductive Resp where
  | Simple (s : List Nat)
  | Err (m : List Nat)
  | Bulk (b : List Nat)
  | Array (xs : List Resp)
  | Integer (i : Int)
  | Data (b : List Nat)
  | Null
deriving Repr

/-- Shorthand for `Resp::bulk` applied to a string literal. -/
def bulk (s : String) : Resp := Resp.Bulk (ascii s)

/-- Shorthand for `Resp::simple` applied to a string literal. -/
def simple (s : String) : Resp := Resp.Simple (ascii s)

mutual
/-- Byte image of `Handler::write`: the serialization of one frame.  Bulk
strings carry a trailing CRLF, `Data` (the raw snapshot bulk) does not. -/
def serialize : Resp → List Nat
  | .Simple s => 43 :: (s ++ [13, 10])
  | .Err m => 45 :: (m ++ [13, 10])
  | .Bulk b => 36 :: (natBytes b.length ++ [13, 10] ++ b ++ [13, 10])
  | .Array xs => 42 :: (natBytes xs.length ++ [13, 10] ++ serializeList xs)
  | .Integer i => 58 :: (intBytes i ++ [13, 10])
  | .Data b => 36 :: (natBytes b.length ++ [13, 10] ++ b)
  | .Null => [36, 45, 49, 13, 10]

/-- Serialization of a run of frames, in order (the array body). -/
def serializeList : List Resp → List Nat
  | [] => []
  | f :: fs => serialize f ++ serializeList fs
end

/-- Length in bytes of the decimal representation of `n`, the
`checked_ilog10().unwrap_or(0) + 1` expression of `Resp::len`. -/
def intLen (n : Nat) : Nat := (if n = 0 then 0 else Nat.log 10 n) + 1

mutual
/-- Embedding of `Resp::len`: the claimed serialized byte count of a frame.
`resp.rs` predates the `Err` variant; its clause mirrors `Simple` (the
shape `write_simple` emits). -/
def Resp.len : Resp → Nat
  | .Simple s => 1 + (s.length + 2)
  | .Err m => 1 + (m.length + 2)
  | .Bulk b => 1 + (intLen b.length + 2 + b.length + 2)
  | .Array xs => 1 + (intLen xs.length + 2 + Resp.lenFold 0 xs)
  | .Integer i => 1 + ((if i < 0 then 1 else 0) + intLen i.natAbs + 2)
  | .Data b => 1 + (intLen b.length + 2 + b.length)
  | .Null => 1 + (2 + 2)

/-- The `elems.iter().fold(0, |acc, x| acc + Self::len(x))` accumulator. -/
def Resp.lenFold : Nat → List Resp → Nat
  | acc, [] => acc
  | acc, f :: fs => Resp.lenFold (acc + Resp.len f) fs
end

/-- Error outcomes of the cursor functions: `Error::Incomplete`, any other
error (`anyhow`), a Rust panic (out-of-bounds slice index or
`unimplemented!`), and fuel exhaustion (unreachable from the wrappers). -/
inductive RErr where
  | incomplete
  | other
  | panicked
  | nofuel
deriving DecidableEq, Repr

/-- The `for _ in 0..len` element loop of `Resp::parse` for arrays. -/
def parseLoop (p : List Nat → Except RErr (Resp × List Nat)) :
    Nat → List Nat → Except RErr (List Resp × List Nat)
  | 0, bs => .ok ([], bs)
  | n + 1, bs =>
    match p bs with
    | .error e => .error e
    | .ok (r, bs1) =>
      match parseLoop p n bs1 with
      | .error e => .error e
      | .ok (rs, bs2) => .ok (r :: rs, bs2)

/-- Embedding of `Resp::parse` on the remaining buffer bytes, fueled.  Each
arm mirrors the Rust arm for that prefix byte, including the two places the
Rust code can panic: the `&cur.chunk()[..2]` probe after `$` when fewer than
two bytes remain, the `&cur.chunk()[..len]` copy when the payload is short,
and the `unimplemented!` on an unknown prefix byte. -/
def parseRespF : Nat → List Nat → Except RErr (Resp × List Nat)
  | 0, _ => .error .nofuel
  | fuel + 1, bs =>
    match bs with
    | [] => .error .incomplete
    | b :: rest =>
      if b = 42 then
        match readLine rest with
        | none => .error .incomplete
        | some (line, r1) =>
          match atoiU u64Max line with
          | none => .error .other
          | some len =>
            match parseLoop (fun bs2 => parseRespF fuel bs2) len r1 with
            | .error e => .error e
            | .ok (elems, r2) => .ok (.Array elems, r2)
      else if b = 43 then
        match readLine rest with
        | none => .error .incomplete
        | some (line, r1) =>
          if utf8Valid line then .ok (.Simple line, r1) else .error .other
      else if b = 36 then
        if rest.length < 2 then .error .panicked
        else if rest.take 2 = [45, 49] then
          if rest.length < 4 then .error .incomplete else .ok (.Null, rest.drop 4)
        else
          match readLine rest with
          | none => .error .incomplete
          | some (line, r1) =>
            match atoiU u64Max line with
            | none => .error .other
            | some len =>
              if r1.length < len then .error .panicked
              else if r1.length < len + 2 then .error .incomplete
              else .ok (.Bulk (r1.take len), r1.drop (len + 2))
      else if b = 58 then
        match readLine rest with
        | none => .error .incomplete
        | some (line, r1) =>
          match atoiI64 line with
          | none => .error .other
          | some i => .ok (.Integer i, r1)
      else .error .panicked

/-- Embedding of `Resp::parse` from the start of a buffer: result frame and
the bytes the cursor leaves behind. -/
def parseResp (bs : List Nat) : Except RErr (Resp × List Nat) :=
  parseRespF (bs.length + 1) bs

/-- The `for _ in 0..len` element loop of `Resp::check`. -/
def checkLoop (c : List Nat → Except RErr (List Nat)) :
    Nat → List Nat → Except RErr (List Nat)
  | 0, bs => .ok bs
  | n + 1, bs =>
    match c bs with
    | .error e => .error e
    | .ok bs1 => checkLoop c n bs1

/-- Embedding of `Resp::check`, fueled: advances over one frame without
building it, or reports `Incomplete`/another error, or panics exactly where
the Rust code does (the `&cur.chunk()[..2]` probe after `$` with fewer than
two bytes remaining, and the unknown-prefix `unimplemented!`). -/
def checkRespF : Nat → List Nat → Except RErr (List Nat)
  | 0, _ => .error .nofuel
  | fuel + 1, bs =>
    match bs with
    | [] => .error .incomplete
    | b :: rest =>
      if b = 42 then
        match readLine rest with
        | none => .error .incomplete
        | some (line, r1) =>
          match atoiU u64Max line with
          | none => .error .other
          | some len => checkLoop (fun bs2 => checkRespF fuel bs2) len r1
      else if b = 43 ∨ b = 58 then
        match readLine rest with
        | none => .error .incomplete
        | some (_, r1) => .ok r1
      else if b = 36 then
        if rest.length < 2 then .error .panicked
        else if rest.take 2 = [45, 49] then
          if rest.length < 4 then .error .incomplete else .ok (rest.drop 4)
        else
          match readLine rest with
          | none => .error .incomplete
          | some (line, r1) =>
            match atoiU u64Max line with
            | none => .error .other
            | some len =>
              if r1.length < len + 2 then .error .incomplete else .ok (r1.drop (len + 2))
      else .error .panicked

/-- Embedding of `Resp::check` from the start of a buffer. -/
def checkResp (bs : List Nat) : Except RErr (List Nat) :=
  checkRespF (bs.length + 1) bs

mutual
/-- Frames that a running Rust server can actually hold and for which the
round trip is claimed: `Simple` payloads are valid UTF-8 (they come from a
Rust `String`) and contain no CRLF, `Integer` payloads lie in the `i64`
range, `Bulk`/`Array` lengths fit `usize`, and the write-only `Err` and the
snapshot-only `Data` variants are excluded. -/
def wfResp : Resp → Bool
  | .Simple s => !hasCRLF s && utf8Valid s
  | .Err _ => false
  | .Bulk b => decide (b.length < u64Mod)
  | .Array xs => decide (xs.length < u64Mod) && wfList xs
  | .Integer i => decide (-(i64MinAbs : Int) ≤ i ∧ i ≤ (i64Max : Int))
  | .Data _ => false
  | .Null => true

/-- Well-formedness of every frame in a list. -/
def wfList : List Resp → Bool
  | [] => true
  | f :: fs => wfResp f && wfList fs
end

/-- Stream entry identifier, the `EntryId` struct: `ms_time` is the
`Duration` measured in nanoseconds (as Rust stores it), `sq_num` the `u64`
sequence number.  The derived order is lexicographic. -/
structure EntryId where
  ms_time : Nat
  sq_num : Nat
deriving DecidableEq, Repr

/-- Embedding of `Duration::from_millis`. -/
def durMs (ms : Nat) : Nat := ms * 1000000

/-- Embedding of `Duration::as_millis`. -/
def asMillis (nanos : Nat) : Nat := nanos / 1000000

/-- The derived lexicographic strict order on entry ids. -/
def idLt (a b : EntryId) : Bool :=
  decide (a.ms_time < b.ms_time ∨ (a.ms_time = b.ms_time ∧ a.sq_num < b.sq_num))

/-- The derived lexicographic order on entry ids. -/
def idLe (a b : EntryId) : Bool := idLt a b || decide (a = b)

/-- Byte image of `EntryId`'s `Display`: `<as_millis>-<sq_num>`. -/
def idBytes (id : EntryId) : List Nat :=
  natBytes (asMillis id.ms_time) ++ [45] ++ natBytes id.sq_num

/-- Stream field-value pairs (`StreamValues`). -/
abbrev StreamValues := List (List Nat × List Nat)

/-- A stream: its `BTreeMap<EntryId, StreamValues>` represented as the
association list of the map in ascending key order. -/
structure Strm where
  inner : List (EntryId × StreamValues)
deriving DecidableEq, Repr

/-- Insertion into the sorted association list representing the `BTreeMap`
(replacing the value of an existing key). -/
def btreeInsert (k : EntryId) (v : StreamValues) :
    List (EntryId × StreamValues) → List (EntryId × StreamValues)
  | [] => [(k, v)]
  | (k2, v2) :: rest =>
    if idLt k k2 then (k, v) :: (k2, v2) :: rest
    else if k = k2 then (k, v) :: rest
    else (k2, v2) :: btreeInsert k v rest

/-- The `BTreeMap::last_key_value` of a stream. -/
def Strm.lastKV (s : Strm) : Option (EntryId × StreamValues) := s.inner.getLast?

/-- Error text for an id at or below the stream top (`Stream::SMALL_EQ`). -/
def smallEqMsg : String :=
  "ERR The ID specified in XADD is equal or smaller than the target stream top item"

/-- Id argument of XADD after parsing: fully explicit, auto sequence
(`<ms>-*`), or fully automatic (`*`).  Times are `Duration` nanoseconds. -/
inductive MaybeAuto where
  | Auto
  | AutoSeq (ms_time : Nat)
  | Set (ms_time : Nat) (sq_num : Nat)
deriving DecidableEq, Repr

/-- Embedding of `MaybeAuto::auto_generate`.  `now` is the value of
`UNIX_EPOCH.elapsed()` in nanoseconds at the moment the `Auto` arm reads the
clock.  The `u64` increment of the top sequence number wraps, as release
builds do. -/
def MaybeAuto.autoGenerate (spec : MaybeAuto) (now : Nat) (stream : Strm) :
    Except String EntryId :=
  let last := stream.lastKV
  match spec with
  | .Set ms sq =>
    let entryId : EntryId := ⟨ms, sq⟩
    match last with
    | some (key, _) => if idLe entryId key then .error smallEqMsg else .ok entryId
    | none => .ok entryId
  | .AutoSeq ms =>
    match last with
    | some (key, _) =>
      if ms < key.ms_time then .error smallEqMsg
      else
        let num := if ms = key.ms_time then (key.sq_num + 1) % u64Mod else 0
        .ok ⟨ms, if asMillis ms = 0 ∧ num = 0 then 1 else num⟩
    | none => .ok ⟨ms, if asMillis ms = 0 then 1 else 0⟩
  | .Auto =>
    let sq := match last with
      | some (key, _) => if key.ms_time = now then (key.sq_num + 1) % u64Mod else 0
      | none => 0
    .ok ⟨now, sq⟩

/-- Stored value payloads, the `Type` enum of `db/type.rs`. -/
inductive TypeV where
  | str (b : List Nat)
  | stream (s : Strm)
deriving DecidableEq, Repr

/-- Embedding of `Type::as_string`. -/
def TypeV.asString : TypeV → Option (List Nat)
  | .str b => some b
  | _ => none

/-- Embedding of `Type::as_stream`. -/
def TypeV.asStream : TypeV → Option Strm
  | .stream s => some s
  | _ => none

/-- A stored value: payload plus optional absolute expiration, a
`SystemTime` in nanoseconds since the epoch. -/
structure Value where
  v_type : TypeV
  expiration : Option Nat
deriving DecidableEq, Repr

/-- The process-wide `HashMap<String, Value>` as an association list with
string keys as byte lists. -/
abbrev DbMap := List (List Nat × Value)

/-- Map lookup (`HashMap::get`). -/
def dbLookup (db : DbMap) (k : List Nat) : Option Value :=
  (db.find? (fun p => p.1 == k)).map (fun p => p.2)

/-- Map insertion, replacing any existing entry (`HashMap::insert`). -/
def dbInsert (db : DbMap) (k : List Nat) (v : Value) : DbMap :=
  match db with
  | [] => [(k, v)]
  | (k2, v2) :: rest => if k2 = k then (k, v) :: rest else (k2, v2) :: dbInsert rest k v

/-- Map removal (`HashMap::remove`). -/
def dbRemove (db : DbMap) (k : List Nat) : DbMap :=
  match db with
  | [] => []
  | (k2, v2) :: rest => if k2 = k then rest else (k2, v2) :: dbRemove rest k

/-- Embedding of `Db::del`: remove each key, counting the ones present. -/
def dbDel (db : DbMap) (keys : List (List Nat)) : Nat × DbMap :=
  keys.foldl
    (fun acc k =>
      match dbLookup acc.2 k with
      | some _ => (acc.1 + 1, dbRemove acc.2 k)
      | none => acc)
    (0, db)

/-- The parsed SET command: key, value payload, absolute expiration. -/
structure SetCmd where
  key : List Nat
  value : TypeV
  expiry : Option Nat
deriving DecidableEq, Repr

/-- Embedding of `Db::set`: unconditional overwrite. -/
def Db.set (db : DbMap) (s : SetCmd) : DbMap :=
  dbInsert db s.key ⟨s.value, s.expiry⟩

/-- Embedding of `Db::get` at wall-clock instant `now` (nanoseconds since
the epoch): a lookup observing `expiration <= now` deletes the entry and
returns nothing; otherwise the value is returned and the map unchanged. -/
def dbGet (db : DbMap) (k : List Nat) (now : Nat) : Option Value × DbMap :=
  match dbLookup db k with
  | none => (none, db)
  | some v =>
    match v.expiration with
    | some exp => if exp ≤ now then (none, dbRemove db k) else (some v, db)
    | none => (some v, db)

/-- Embedding of the TYPE command's lookup (`Type::apply_and_respond`): a
plain map read with no expiration check. -/
def typeOf (db : DbMap) (k : List Nat) : List Nat :=
  match dbLookup db k with
  | none => ascii "none"
  | some v =>
    match v.v_type with
    | .str _ => ascii "string"
    | .stream _ => ascii "stream"

/-- The parsed XADD command. -/
structure XaddCmd where
  key : List Nat
  id : MaybeAuto
  k_v : StreamValues
deriving DecidableEq, Repr

/-- Embedding of `Db::xadd`: create the stream lazily, generate the id,
insert, and return the formatted id, the id published on the watch channel,
and the updated map.  A failed generation leaves the map unchanged. -/
def Db.xadd (db : DbMap) (now : Nat) (x : XaddCmd) :
    Except String (List Nat × EntryId × DbMap) :=
  match dbLookup db x.key with
  | some v =>
    match v.v_type with
    | .stream s =>
      match x.id.autoGenerate now s with
      | .error e => .error e
      | .ok id =>
        .ok (idBytes id, id,
          dbInsert db x.key ⟨.stream ⟨btreeInsert id x.k_v s.inner⟩, v.expiration⟩)
    | .str _ => .error "XADD on invalid key"
  | none =>
    match x.id.autoGenerate now ⟨[]⟩ with
    | .error e => .error e
    | .ok id =>
      .ok (idBytes id, id, dbInsert db x.key ⟨.stream ⟨btreeInsert id x.k_v []⟩, none⟩)

/-- Embedding of `Incr::apply`: absent key becomes 1; a string key must
parse as `i64` and is replaced by the decimal text of the incremented
value; the expiration of an existing entry is untouched. -/
def Db.incr (db : DbMap) (k : List Nat) : Except String (Int × DbMap) :=
  match dbLookup db k with
  | some v =>
    match v.v_type.asString with
    | none => .error "WRONGTYPE Operation against a key holding the wrong kind of value"
    | some bs =>
      match atoiI64 bs with
      | none => .error "ERR value is not an integer or out of range"
      | some i =>
        if i = (i64Max : Int) then .error "ERR increment would overflow"
        else .ok (i + 1, dbInsert db k ⟨.str (intBytes (i + 1)), v.expiration⟩)
  | none => .ok (1, dbInsert db k ⟨.str (intBytes 1), none⟩)

/-- The entries of `BTreeMap::range((Excluded(id), Unbounded))` on the
sorted association list. -/
def rangeFromExcl (lb : EntryId) (inner : List (EntryId × StreamValues)) :
    List (EntryId × StreamValues) :=
  inner.filter (fun e => idLt lb e.1)

/-- The entries of the `id..` range (`Included(id)`, used by the
post-unblock XREAD). -/
def rangeFromIncl (lb : EntryId) (inner : List (EntryId × StreamValues)) :
    List (EntryId × StreamValues) :=
  inner.filter (fun e => idLe lb e.1)

/-- Embedding of `Stream::iter_with_count` applied after a range: keep the
first `count` entries when a count is given. -/
def iterWithCount (count : Option Nat) (l : List (EntryId × StreamValues)) :
    List (EntryId × StreamValues) :=
  match count with
  | some c => l.take c
  | none => l

/-- Embedding of `Stream::format_entries`. -/
def formatEntries (entries : List (EntryId × StreamValues)) : List Resp :=
  entries.foldl
    (fun acc e =>
      acc ++ [Resp.Array [Resp.Bulk (idBytes e.1),
        Resp.Array (e.2.foldl (fun a kv => a ++ [Resp.Bulk kv.1, Resp.Bulk kv.2]) [])]])
    []

/-- An XREAD id argument: `$` (`Top`) or an explicit exclusive lower bound. -/
inductive MaybeTopId where
  | Top
  | NotTop (id : EntryId)
deriving DecidableEq, Repr

/-- Embedding of `Xread::get_keys_entries`: the per-key entry lists of the
immediate read.  Missing keys, `$` ids, and keys with no newer entry are
skipped; a non-stream key is an error. -/
def getKeysEntries (db : DbMap) (count : Option Nat) :
    List (List Nat × MaybeTopId) → Except String (List Resp)
  | [] => .ok []
  | (key, id) :: rest =>
    match dbLookup db key with
    | none => getKeysEntries db count rest
    | some v =>
      match v.v_type.asStream with
      | none => .error "XREAD on invalid key"
      | some s =>
        match id with
        | .Top => getKeysEntries db count rest
        | .NotTop lb =>
          let entries := formatEntries (iterWithCount count (rangeFromExcl lb s.inner))
          if entries.isEmpty then getKeysEntries db count rest
          else
            match getKeysEntries db count rest with
            | .error e => .error e
            | .ok vs => .ok (Resp.Array [Resp.Bulk key, Resp.Array entries] :: vs)

/-- The immediate XREAD reply: Null when every key was skipped. -/
def xreadImmediate (db : DbMap) (count : Option Nat)
    (keysIds : List (List Nat × MaybeTopId)) : Except String Resp :=
  match getKeysEntries db count keysIds with
  | .error e => .error e
  | .ok [] => .ok Resp.Null
  | .ok vs => .ok (Resp.Array vs)

/-- The wake condition of one watcher task in `Xread::first_unblocked`: the
notified key must match, and for an explicit id the notified entry id must
not be below it (`$` accepts any append to the key). -/
def xreadWakes (pair : List Nat × MaybeTopId) (notif : List Nat × EntryId) : Bool :=
  notif.1 == pair.1 &&
    match pair.2 with
    | .Top => true
    | .NotTop lb => !(idLt notif.2 lb)

/-- The post-unblock read of `Xread::apply_and_respond`: look the notified
key up, `unwrap` it into a stream (`none` here is the Rust panic), and
format the entries from the notified id on, inclusive (`id..`). -/
def postUnblockRead (db : DbMap) (key : List Nat) (id : EntryId) (count : Option Nat) :
    Option Resp :=
  match (dbLookup db key).bind (fun v => v.v_type.asStream) with
  | none => none
  | some s =>
    some (Resp.Array [Resp.Bulk key,
      Resp.Array (formatEntries (iterWithCount count (rangeFromIncl id s.inner)))])

/-- A run of XADD calls against one key: each call carries the clock value
its `Auto` arm would read, the id argument, and the field-value pairs; the
ids of the successful calls are collected in order. -/
def runXadds (key : List Nat) :
    List (Nat × MaybeAuto × StreamValues) → DbMap → List EntryId × DbMap
  | [], db => ([], db)
  | (now, spec, kv) :: calls, db =>
    match Db.xadd db now ⟨key, spec, kv⟩ with
    | .error _ => runXadds key calls db
    | .ok (_, id, db2) =>
      let rec2 := runXadds key calls db2
      (id :: rec2.1, rec2.2)

/-- The top entry id of the stream stored at a key. -/
def dbTop (db : DbMap) (key : List Nat) : Option EntryId :=
  match dbLookup db key with
  | some v =>
    match v.v_type with
    | .stream s => (s.lastKV).map (fun e => e.1)
    | .str _ => none
  | none => none

/-- Representation invariant of the embedded `BTreeMap`: the stream stored
at a key (when there is one) keeps its association list strictly sorted by
entry id. -/
def dbStreamOk (db : DbMap) (key : List Nat) : Prop :=
  ∀ v, dbLookup db key = some v →
    ∀ s, v.v_type = TypeV.stream s →
      s.inner.Pairwise (fun a b => idLt a.1 b.1 = true)

/-- Embedding of `Resp::as_bulk`. -/
def Resp.asBulk : Resp → Option (List Nat)
  | .Bulk b => some b
  | _ => none

/-- Embedding of `Resp::as_array`. -/
def Resp.asArray : Resp → Option (List Resp)
  | .Array xs => some xs
  | _ => none

/-- Embedding of `Resp::as_string` / `Resp::to_string`: a bulk payload must
be valid UTF-8; a simple string is returned as is. -/
def Resp.toStringBytes : Resp → Except String (List Nat)
  | .Bulk b => if utf8Valid b then .ok b else .error "Invalid String"
  | .Simple s => .ok s
  | _ => .error "Not valid RESP for a string"

/-- Embedding of `Resp::as_bytes` / `Resp::to_bytes`. -/
def Resp.toBytes : Resp → Except String (List Nat)
  | .Bulk b => .ok b
  | .Simple s => .ok s
  | _ => .error "Not valid RESP for bytes"

/-- Embedding of `Resp::to_int` at an unsigned integer type with maximum
`max`. -/
def Resp.toIntU (max : Nat) : Resp → Except String Nat
  | .Bulk b =>
    match atoiU max b with
    | some n => .ok n
    | none => .error "Failed to parse int from slice"
  | .Simple s =>
    match atoiU max s with
    | some n => .ok n
    | none => .error "Failed to parse int from slice"
  | _ => .error "Not valid RESP for a int"

/-- Embedding of `Resp::to_int` at `i64`. -/
def Resp.toIntI64 : Resp → Except String Int
  | .Bulk b =>
    match atoiI64 b with
    | some n => .ok n
    | none => .error "Failed to parse int from slice"
  | .Simple s =>
    match atoiI64 s with
    | some n => .ok n
    | none => .error "Failed to parse int from slice"
  | _ => .error "Not valid RESP for a int"

/-- Split a byte string before the first `-`. -/
def splitFirstDash : List Nat → Option (List Nat × List Nat)
  | [] => none
  | b :: rest =>
    if b = 45 then some ([], rest)
    else (splitFirstDash rest).map (fun p => (b :: p.1, p.2))

/-- Embedding of `str::rsplit_once('-')`: split at the last `-`. -/
def rsplitDash (bs : List Nat) : Option (List Nat × List Nat) :=
  (splitFirstDash bs.reverse).map (fun p => (p.2.reverse, p.1.reverse))

/-- Embedding of `EntryId::split_or_seq`: `<ms>-<seq>`, or a bare `<ms>`
with the given default sequence number. -/
def EntryId.splitOrSeq (sq : Nat) (id : List Nat) : Except String EntryId :=
  match rsplitDash id with
  | some (msPart, sqPart) =>
    match parseU64Str msPart with
    | none => .error "invalid digit found in string"
    | some ms =>
      match parseU64Str sqPart with
      | none => .error "invalid digit found in string"
      | some sqv => .ok ⟨durMs ms, sqv⟩
  | none =>
    match parseU64Str id with
    | none => .error "invalid digit found in string"
    | some ms => .ok ⟨durMs ms, sq⟩

/-- The `ReplConf` sub-command enum. -/
inductive ReplConfCmd where
  | listeningPort (port : Nat)
  | capa (c : List Nat)
  | getAck
  | ack (offset : Nat)
deriving Repr

/-- The `PSYNC` offset argument. -/
inductive POffset where
  | unknown
  | num (n : Nat)
deriving Repr

/-- The `Info` section argument (only replication is implemented). -/
inductive InfoCmd where
  | replication
deriving Repr

/-- The `Config` sub-command (only GET is implemented). -/
inductive ConfigCmd where
  | get (params : List (List Nat))
deriving Repr

/-- The parsed XREAD command; `block_time` is a `Duration` in nanoseconds. -/
structure XreadCmd where
  block_time : Option Nat
  count : Option Nat
  keys_ids : List (List Nat × MaybeTopId)
deriving Repr

/-- The `Command` enum of `commands/mod.rs`.  The session dispatcher of
`handler.rs` also matches a `Discard` variant (the two files are from
adjacent commits); the constructor exists here so that dispatch arm can be
embedded, while `Command.parse` follows `commands/mod.rs`, which has no
`discard` arm. -/
inductive Command where
  | ping (msg : Option (List Nat))
  | echo (msg : List Nat)
  | get (key : List Nat)
  | set (s : SetCmd)
  | del (keys : List Resp)
  | info (i : InfoCmd)
  | replconf (r : ReplConfCmd)
  | wait (minSlaves : Int) (timeout : Nat)
  | psync (id : List Nat) (offset : POffset)
  | config (c : ConfigCmd)
  | keys (pat : List Nat)
  | typeCmd (key : List Nat)
  | xadd (x : XaddCmd)
  | xrange (key : List Nat) (start fin : EntryId)
  | xread (x : XreadCmd)
  | incr (key : List Nat)
  | multi
  | exec
  | discard
deriving Repr

/-- A command-layer failure: an `anyhow` error message, or a Rust panic
(`unimplemented!` / `todo!`). -/
inductive CmdErr where
  | msg (s : String)
  | panicked
deriving Repr

/-- Embedding of `Ping::parse` (infallible). -/
def pingParse (args : List Resp) : Command :=
  .ping (args.head?.bind (fun r => r.toBytes.toOption))

/-- Embedding of `Echo::parse`. -/
def echoParse (args : List Resp) : Except String Command :=
  match args.head?.bind Resp.asBulk with
  | some m => .ok (.echo m)
  | none => .error "Expected bulk string"

/-- Embedding of `Get::parse`. -/
def getParse (args : List Resp) : Except String Command :=
  match args.head? with
  | none => .error "Missing key"
  | some r => (r.toStringBytes).map .get

/-- Embedding of `Set::parse` at wall-clock instant `now`; the unknown
extension-flag arm is a `todo!` panic. -/
def setParse (now : Nat) (args : List Resp) : Except CmdErr Command :=
  match args.head? with
  | none => .error (.msg "Missing key")
  | some a0 =>
    match a0.toStringBytes with
    | .error e => .error (.msg e)
    | .ok key =>
      match args.tail.head? with
      | none => .error (.msg "Missing Value")
      | some a1 =>
        match a1.toBytes with
        | .error e => .error (.msg e)
        | .ok value =>
          match args.tail.tail.head? with
          | none => .ok (.set ⟨key, .str value, none⟩)
          | some a2 =>
            match a2.asBulk with
            | none => .ok (.set ⟨key, .str value, none⟩)
            | some flag =>
              let dur := args.tail.tail.tail.head?.bind
                (fun x => x.toBytes.toOption.bind (atoiU u64Max))
              if lowerBytes flag = ascii "px" then
                .ok (.set ⟨key, .str value, dur.map (fun d => now + durMs d)⟩)
              else if lowerBytes flag = ascii "ex" then
                .ok (.set ⟨key, .str value, dur.map (fun d => now + d * 1000000000)⟩)
              else .error .panicked

/-- Embedding of `Info::parse`; an unknown section is a `todo!` panic. -/
def infoParse (args : List Resp) : Except CmdErr Command :=
  match args.head?.bind Resp.asBulk with
  | none => .ok (.info .replication)
  | some arg =>
    if lowerBytes arg = ascii "replication" then .ok (.info .replication)
    else .error .panicked

/-- Embedding of `ReplConf::parse`; an unknown sub-command is a `todo!`
panic. -/
def replconfParse (args : List Resp) : Except CmdErr Command :=
  match args.head? with
  | none => .error (.msg "Missing args")
  | some a0 =>
    match a0.asBulk with
    | none => .error (.msg "Expected bulk string")
    | some arg =>
      if lowerBytes arg = ascii "listening-port" then
        match args.tail.head? with
        | none => .error (.msg "Missing port")
        | some p =>
          match p.toIntU 65535 with
          | .error e => .error (.msg e)
          | .ok port => .ok (.replconf (.listeningPort port))
      else if lowerBytes arg = ascii "capa" then
        match args.tail.head? with
        | none => .error (.msg "Missing capa")
        | some c =>
          match c.toBytes with
          | .error e => .error (.msg e)
          | .ok cb => .ok (.replconf (.capa cb))
      else if lowerBytes arg = ascii "getack" then
        match args.tail.head?.bind Resp.asBulk with
        | some star => if star = ascii "*" then .ok (.replconf .getAck)
                       else .error (.msg "Condition failed")
        | none => .error (.msg "Condition failed")
      else if lowerBytes arg = ascii "ack" then
        match args.tail.head? with
        | none => .error (.msg "Missing offset")
        | some o =>
          match o.toIntU u64Max with
          | .error e => .error (.msg e)
          | .ok off => .ok (.replconf (.ack off))
      else .error .panicked

/-- Embedding of `Wait::parse`. -/
def waitParse (args : List Resp) : Except String Command :=
  match args.head? with
  | none => .error "Missing num of slaves"
  | some a0 =>
    match a0.toIntI64 with
    | .error e => .error e
    | .ok minSlaves =>
      match args.tail.head? with
      | none => .error "Missing timeout"
      | some a1 =>
        match a1.toIntU u64Max with
        | .error e => .error e
        | .ok t => .ok (.wait minSlaves (durMs t))

/-- Embedding of `Psync::parse`. -/
def psyncParse (args : List Resp) : Except String Command :=
  match args.head? with
  | none => .error "Expected id"
  | some a0 =>
    match a0.toStringBytes with
    | .error e => .error e
    | .ok id =>
      match args.tail.head?.bind Resp.asBulk with
      | none => .error "Expected offset"
      | some ob =>
        if ob = ascii "-1" then .ok (.psync id .unknown)
        else
          match atoiU u64Max ob with
          | some n => .ok (.psync id (.num n))
          | none => .error "Failed to parse int from slice"

/-- Embedding of `Config::parse`; an unknown sub-command is a `todo!`
panic. -/
def configParse (args : List Resp) : Except CmdErr Command :=
  match args.head? with
  | none => .error (.msg "Missing args")
  | some a0 =>
    match a0.asBulk with
    | none => .error (.msg "Expected bulk string")
    | some arg =>
      if lowerBytes arg = ascii "get" then
        .ok (.config (.get (args.tail.filterMap Resp.asBulk)))
      else .error .panicked

/-- Embedding of `Keys::parse`. -/
def keysParse (args : List Resp) : Except String Command :=
  match args.head? with
  | none => .error "Missing pattern"
  | some a0 => (a0.toStringBytes).map .keys

/-- Embedding of `Type::parse`. -/
def typeParse (args : List Resp) : Except String Command :=
  match args.head? with
  | none => .error "Missing key"
  | some a0 => (a0.toStringBytes).map .typeCmd

/-- Key-value pair collection of `Xadd::parse`. -/
def xaddPairs : List Resp → Except String StreamValues
  | [] => .ok []
  | [k] => .error ("No value found for key: " ++ reprStr k)
  | k :: v :: rest =>
    match k.toStringBytes with
    | .error e => .error e
    | .ok kb =>
      match v.toStringBytes with
      | .error e => .error e
      | .ok vb => (xaddPairs rest).map (fun ps => (kb, vb) :: ps)

/-- The pair collection followed by the non-empty check of `Xadd::parse`. -/
def xaddPairsChecked (args : List Resp) : Except String StreamValues :=
  match xaddPairs args with
  | .error e => .error e
  | .ok [] => .error "Missing key-value pairs"
  | .ok kv => .ok kv

/-- Embedding of `Xadd::parse`: key, id specification (`*`, `<ms>-*`, or
`<ms>-<seq>` with the `0-0` rejection), then the field-value pairs. -/
def xaddParse (args : List Resp) : Except String XaddCmd :=
  match args.head? with
  | none => .error "Missing key"
  | some a0 =>
    match a0.toStringBytes with
    | .error e => .error e
    | .ok key =>
      match args.tail.head? with
      | none => .error "Missing id"
      | some a1 =>
        match a1.asBulk with
        | none => .error "Invalid value for id"
        | some idb =>
          if !utf8Valid idb then .error "invalid utf-8 sequence"
          else
            match rsplitDash idb with
            | some (msPart, sqPart) =>
              (match parseU64Str msPart with
               | none => .error "invalid digit found in string"
               | some time =>
                 if sqPart = ascii "*" then
                   (xaddPairsChecked args.tail.tail).map
                     (fun kv => ⟨key, .AutoSeq (durMs time), kv⟩)
                 else
                   match parseU64Str sqPart with
                   | none => .error "invalid digit found in string"
                   | some sq =>
                     if time = 0 ∧ ¬sq > 0 then
                       .error "ERR The ID specified in XADD must be greater than 0-0"
                     else
                       (xaddPairsChecked args.tail.tail).map
                         (fun kv => ⟨key, .Set (durMs time) sq, kv⟩))
            | none =>
              if idb = ascii "*" then
                (xaddPairsChecked args.tail.tail).map (fun kv => ⟨key, .Auto, kv⟩)
              else .error "Invalid format for id: <millisecondsTime>-<sequenceNumber> or *"

/-- Embedding of `to_entry_id` of `Xrange::parse`: a bare `<ms>` gets
sequence number 0 as a start bound and `u64::MAX` as an end bound. -/
def toEntryId (r : Resp) (start : Bool) : Except String EntryId :=
  match r.asBulk with
  | none => .error "Invalid value for range"
  | some idb =>
    if !utf8Valid idb then .error "invalid utf-8 sequence"
    else
      match rsplitDash idb with
      | some (msPart, sqPart) =>
        (match parseU64Str msPart with
         | none => .error "invalid digit found in string"
         | some ms =>
           match parseU64Str sqPart with
           | none => .error "invalid digit found in string"
           | some sq => .ok ⟨durMs ms, sq⟩)
      | none =>
        match parseU64Str idb with
        | none => .error "invalid digit found in string"
        | some ms => .ok ⟨durMs ms, if start then 0 else u64Max⟩

/-- Embedding of `Xrange::parse`. -/
def xrangeParse (args : List Resp) : Except String Command :=
  match args.head? with
  | none => .error "Missing key"
  | some a0 =>
    match a0.toStringBytes with
    | .error e => .error e
    | .ok key =>
      match args.tail.head? with
      | none => .error "Missing start"
      | some a1 =>
        match toEntryId a1 true with
        | .error e => .error e
        | .ok s =>
          match args.tail.tail.head? with
          | none => .error "Missing end"
          | some a2 =>
            match toEntryId a2 false with
            | .error e => .error e
            | .ok e2 => .ok (.xrange key s e2)

/-- The flag loop of `Xread::parse`: consume `BLOCK`/`COUNT` arguments
until `STREAMS` (or a missing/non-bulk argument) ends the loop, returning
the remaining arguments. -/
def xreadFlags : List Resp → Option Nat → Option Nat →
    Except String (Option Nat × Option Nat × List Resp)
  | [], b, c => .ok (b, c, [])
  | x :: rest, b, c =>
    match x.asBulk with
    | none => .ok (b, c, rest)
    | some arg =>
      if lowerBytes arg = ascii "block" then
        match rest.head?.bind Resp.asBulk with
        | none => xreadFlags rest.tail none c
        | some bs =>
          match atoiU u64Max bs with
          | none => .error "Failed to parse int from slice"
          | some ms => xreadFlags rest.tail (some (durMs ms)) c
      else if lowerBytes arg = ascii "count" then
        match rest.head?.bind Resp.asBulk with
        | none => xreadFlags rest.tail b none
        | some bs =>
          match atoiU u64Max bs with
          | none => .error "Failed to parse int from slice"
          | some n => xreadFlags rest.tail b (some n)
      else if lowerBytes arg = ascii "streams" then .ok (b, c, rest)
      else .error "Expected \x22streams\x22 argument"
termination_by l _ _ => l.length
decreasing_by all_goals (simp [List.length_tail]; omega)

/-- The per-pair id resolution of `Xread::parse`: `$` is the pre-call-top
marker, anything else is `EntryId::split_or_seq(0, id)`. -/
def xreadPair (key : Resp) (id : Resp) : Except String (List Nat × MaybeTopId) :=
  match key.toStringBytes with
  | .error e => .error e
  | .ok kb =>
    match id.asBulk with
    | none => .error "Invalid id"
    | some idb =>
      if idb = ascii "$" then .ok (kb, .Top)
      else if !utf8Valid idb then .error "invalid utf-8 sequence"
      else (EntryId.splitOrSeq 0 idb).map (fun e => (kb, .NotTop e))

/-- Zip the first and second halves of the `STREAMS` arguments into
`(key, id)` pairs. -/
def xreadPairs : List Resp → List Resp → Except String (List (List Nat × MaybeTopId))
  | [], _ => .ok []
  | _ :: _, [] => .error "Invalid number of arguments"
  | k :: ks, i :: is2 =>
    match xreadPair k i with
    | .error e => .error e
    | .ok p => (xreadPairs ks is2).map (fun ps => p :: ps)

/-- Embedding of `Xread::parse`. -/
def xreadParse (args : List Resp) : Except String XreadCmd :=
  match xreadFlags args none none with
  | .error e => .error e
  | .ok (b, c, slice) =>
    if slice.isEmpty ∨ slice.length % 2 ≠ 0 then .error "Invalid number of arguments"
    else
      let half := slice.length / 2
      match xreadPairs (slice.take half) (slice.drop half) with
      | .error e => .error e
      | .ok keysIds => .ok ⟨b, c, keysIds⟩

/-- Embedding of `Incr::parse`. -/
def incrParse (args : List Resp) : Except String Command :=
  match args.head? with
  | none => .error "Missing key"
  | some a0 => (a0.toStringBytes).map .incr

/-- Embedding of `Multi::parse`. -/
def multiParse (args : List Resp) : Except String Command :=
  if args.isEmpty then .ok .multi
  else .error "ERR wrong number of arguments for 'multi' command"

/-- Embedding of `Exec::parse`. -/
def execParse (args : List Resp) : Except String Command :=
  if args.isEmpty then .ok .exec
  else .error "ERR wrong number of arguments for 'exec' command"

/-- Lift an `anyhow` command-parse result into the command error type. -/
def liftCmd (r : Except String Command) : Except CmdErr Command :=
  match r with
  | .ok c => .ok c
  | .error e => .error (.msg e)

/-- Embedding of `Command::parse` at wall-clock instant `now` (needed by
the SET expiry computation): dispatch on the lowercased command name; an
unknown name is the `unimplemented!` panic.  `commands/mod.rs` has no
`discard` arm, so DISCARD also reaches the panic.  The returned list is
`raw_cmd`, the elements of the original array. -/
def Command.parse (now : Nat) (resp : Resp) : Except CmdErr (Command × List Resp) :=
  match resp.asArray with
  | none => .error (.msg "Unsupported RESP for command")
  | some raw =>
    match raw.head?.bind Resp.asBulk with
    | none => .error (.msg "Expected bulk string")
    | some cmdName =>
      let args := raw.tail
      let lc := lowerBytes cmdName
      let parsed : Except CmdErr Command :=
        if lc = ascii "ping" then .ok (pingParse args)
        else if lc = ascii "echo" then liftCmd (echoParse args)
        else if lc = ascii "get" then liftCmd (getParse args)
        else if lc = ascii "set" then setParse now args
        else if lc = ascii "del" then .ok (.del args)
        else if lc = ascii "info" then infoParse args
        else if lc = ascii "replconf" then replconfParse args
        else if lc = ascii "wait" then liftCmd (waitParse args)
        else if lc = ascii "psync" then liftCmd (psyncParse args)
        else if lc = ascii "config" then configParse args
        else if lc = ascii "keys" then liftCmd (keysParse args)
        else if lc = ascii "type" then liftCmd (typeParse args)
        else if lc = ascii "xadd" then liftCmd ((xaddParse args).map .xadd)
        else if lc = ascii "xrange" then liftCmd (xrangeParse args)
        else if lc = ascii "xread" then liftCmd ((xreadParse args).map .xread)
        else if lc = ascii "incr" then liftCmd (incrParse args)
        else if lc = ascii "multi" then liftCmd (multiParse args)
        else if lc = ascii "exec" then liftCmd (execParse args)
        else .error .panicked
      parsed.map (fun c => (c, raw))

/-- Per-session state of `CommandHandler`: the transaction queue of parsed
commands with their raw frames, and the transaction flag. -/
structure Session where
  queued : List (Command × List Resp)
  transaction : Bool
deriving Repr

/-- Outcome of `CommandHandler::apply_commands` for one command.  Store
mutation, propagation to replicas, and the PSYNC connection hand-off are
I/O against the shared store and the role object; they are abstracted into
the `exec` parameter of the session functions, so the session theorems hold
for every behaviour of those collaborators. -/
inductive ApplyOut where
  | ok (r : Resp)
  | err (m : String)
  | replicated
deriving Repr

/-- Embedding of `CommandHandler::apply_commands`: the control arms
(EXEC/DISCARD outside a transaction, MULTI setting the flag, the PSYNC
transaction guard) are explicit; every other arm executes the command via
`exec` (covering the `execute()` call and, for the write class, the
propagation). -/
def applyCommands (exec : Command → List Resp → Except String Resp) (st : Session)
    (cmd : Command) (raw : List Resp) : Session × ApplyOut :=
  match cmd with
  | .exec => (st, .err "ERR EXEC without MULTI")
  | .discard => (st, .err "ERR DISCARD without MULTI")
  | .multi => ({ st with transaction := true }, .ok (simple "OK"))
  | .psync _ _ =>
    if st.transaction then (st, .err "ERR Command not allowed inside a transaction")
    else (st, .replicated)
  | c => match exec c raw with
    | .ok r => (st, .ok r)
    | .error e => (st, .err e)

/-- The queue loop of `CommandHandler::apply_exec`: run each queued command
through `apply_commands`, turning a failure into a `Resp::Err` record in
its position (`unwrap_or_else`); a `Replicated` escape renders as the
display text of that error variant. -/
def execQueue (exec : Command → List Resp → Except String Resp) :
    Session → List (Command × List Resp) → Session × List Resp
  | st, [] => (st, [])
  | st, (c, raw) :: rest =>
    let step := applyCommands exec st c raw
    let r := match step.2 with
      | .ok r => r
      | .err e => Resp.Err (ascii e)
      | .replicated => Resp.Err (ascii "Handler was taken for replication")
    let next := execQueue exec step.1 rest
    (next.1, r :: next.2)

/-- Embedding of `CommandHandler::apply_exec`: take the queue, run it in
order, clear the transaction flag, and reply with the collected array. -/
def applyExec (exec : Command → List Resp → Except String Resp) (st : Session) :
    Session × List Resp :=
  let run := execQueue exec { st with queued := [] } st.queued
  ({ run.1 with transaction := false }, run.2)

/-- What one iteration of the session loop does with the frame it read:
reply with a frame, reply with a serialized error and continue
(`handle_commands`), panic (tearing the session task down), or hand the
connection to the replication role. -/
inductive StepOut where
  | reply (r : Resp)
  | errReply (m : String)
  | panicked
  | replicated
deriving Repr

/-- Embedding of `CommandHandler::handle_command` on one received frame:
parse, then either route through the transaction queue or apply directly.
A parse failure propagates out of `handle_command` before the transaction
branch is reached, and `handle_commands` serializes it as an error reply
and keeps the loop running. -/
def handleCommand (exec : Command → List Resp → Except String Resp) (now : Nat)
    (st : Session) (resp : Resp) : Session × StepOut :=
  match Command.parse now resp with
  | .error .panicked => (st, .panicked)
  | .error (.msg e) => (st, .errReply e)
  | .ok (cmd, raw) =>
    if st.transaction then
      match cmd with
      | .exec =>
        let run := applyExec exec st
        (run.1, .reply (.Array run.2))
      | .multi => (st, .errReply "ERR MULTI calls can not be nested")
      | .discard => ({ queued := [], transaction := false }, .reply (simple "OK"))
      | other => ({ st with queued := st.queued ++ [(other, raw)] }, .reply (simple "QUEUED"))
    else
      match applyCommands exec st cmd raw with
      | (st2, .ok r) => (st2, .reply r)
      | (st2, .err e) => (st2, .errReply e)
      | (st2, .replicated) => (st2, .replicated)

/-- The `REPLCONF ACK <offset>` frame a replica sends
(`ReplConf::into_resp` on `Ack`). -/
def ackResp (offset : Nat) : Resp :=
  Resp.Array [bulk "REPLCONF", bulk "ACK", Resp.Bulk (natBytes offset)]

/-- Replica-side state: the local store and the byte offset counter. -/
structure SlaveState where
  db : DbMap
  offset : Nat
deriving Repr

/-- Embedding of one iteration of `Slave::handle_connection` on the frame
`resp` read from the primary.  A frame that fails to parse is logged and
skipped without touching the offset; a parse panic tears the task down.
Write-class commands mutate the local store silently; `REPLCONF` answers
via `execute_slave`, which replies `ACK` with the **current** offset for
`GETACK` and fails the connection otherwise.  Only after the command is
handled is the frame's serialized length added to the offset (a wrapping
`u64` `fetch_add`). -/
def slaveStep (now : Nat) (st : SlaveState) (resp : Resp) :
    Except String (SlaveState × Option Resp) :=
  match Command.parse now resp with
  | .error .panicked => .error "panicked: unimplemented command name"
  | .error (.msg _) => .ok (st, none)
  | .ok (cmd, _) =>
    let db2 := match cmd with
      | .set s => Db.set st.db s
      | .del keys => (dbDel st.db (keys.filterMap (fun r => r.toStringBytes.toOption))).2
      | .xadd x =>
        match Db.xadd st.db now x with
        | .ok r => r.2.2
        | .error _ => st.db
      | .incr k =>
        match Db.incr st.db k with
        | .ok r => r.2
        | .error _ => st.db
      | _ => st.db
    match cmd with
    | .replconf r =>
      match r with
      | .getAck =>
        .ok ({ db := db2, offset := (st.offset + resp.len) % u64Mod }, some (ackResp st.offset))
      | _ => .error "Expected getack"
    | _ => .ok ({ db := db2, offset := (st.offset + resp.len) % u64Mod }, none)

/-- Every byte of a decimal representation is an ASCII digit. -/
theorem natBytes_digits (n : Nat) : ∀ b ∈ natBytes n, 48 ≤ b ∧ b ≤ 57 := by
  induction n using Nat.strong_induction_on with
  | _ n ih =>
    rw [natBytes]
    split
    · intro b hb
      simp only [List.mem_singleton] at hb
      omega
    · intro b hb
      rcases List.mem_append.1 hb with h | h
      · exact ih (n / 10) (Nat.div_lt_self (by omega) (by omega)) b h
      · simp only [List.mem_singleton] at h
        have : n % 10 < 10 := Nat.mod_lt n (by omega)
        omega

/-- A decimal representation is never empty. -/
theorem natBytes_ne_nil (n : Nat) : natBytes n ≠ [] := by
  rw [natBytes]
  split <;> simp

/-- Appending a digit multiplies the value by ten and adds the digit. -/
theorem digitsVal_append (l : List Nat) (d : Nat) :
    digitsVal (l ++ [d]) = 10 * digitsVal l + (d - 48) := by
  simp [digitsVal, List.foldl_append, Nat.mul_comm]

/-- The decimal representation evaluates back to the number. -/
theorem digitsVal_natBytes (n : Nat) : digitsVal (natBytes n) = n := by
  induction n using Nat.strong_induction_on with
  | _ n ih =>
    rw [natBytes]
    split
    · simp [digitsVal]
    · rw [digitsVal_append, ih (n / 10) (Nat.div_lt_self (by omega) (by omega))]
      have : n % 10 < 10 := Nat.mod_lt n (by omega)
      omega

/-- Length of the decimal representation matches the `ilog10`-based length
computation of `Resp::len`. -/
theorem natBytes_length (n : Nat) : (natBytes n).length = intLen n := by
  induction n using Nat.strong_induction_on with
  | _ n ih =>
    rw [natBytes]
    split
    · rename_i hlt
      have hlog0 : Nat.log 10 n = 0 := by
        rw [Nat.log_eq_zero_iff]
        left
        omega
      simp [intLen, hlog0]
    · rename_i h10
      rw [List.length_append, ih (n / 10) (Nat.div_lt_self (by omega) (by omega))]
      have hlog : Nat.log 10 (n / 10) = Nat.log 10 n - 1 := Nat.log_div_base 10 n
      have hone : 1 ≤ Nat.log 10 n := by
        have : Nat.log 10 n ≠ 0 := by
          rw [Ne, Nat.log_eq_zero_iff]
          omega
        omega
      have hdiv : n / 10 ≠ 0 := by
        have := Nat.div_pos (show 10 ≤ n by omega) (show 0 < 10 by omega)
        omega
      simp only [intLen, if_neg hdiv, if_neg (show ¬n = 0 by omega), List.length_singleton]
      omega

/-- A list of digits is taken whole by `takeWhile isDigit`. -/
theorem takeWhile_digits (l : List Nat) (h : ∀ b ∈ l, 48 ≤ b ∧ b ≤ 57) :
    l.takeWhile isDigit = l := by
  induction l with
  | nil => rfl
  | cons b l ih =>
    have hb := h b (by simp)
    have : isDigit b = true := by simp [isDigit]; omega
    rw [List.takeWhile_cons_of_pos this, ih (fun x hx => h x (by simp [hx]))]

/-- Evaluating `atoiCore` on an exact decimal representation. -/
theorem atoiCore_natBytes (max n : Nat) (h : n ≤ max) :
    atoiCore max (natBytes n) = some n := by
  unfold atoiCore
  rw [takeWhile_digits _ (natBytes_digits n)]
  simp [natBytes_ne_nil n, digitsVal_natBytes n, h]

/-- The decimal representation starts with a digit. -/
theorem natBytes_head (n : Nat) :
    ∃ d tl, natBytes n = d :: tl ∧ 48 ≤ d ∧ d ≤ 57 := by
  rcases hn : natBytes n with _ | ⟨d, tl⟩
  · exact absurd hn (natBytes_ne_nil n)
  · have := natBytes_digits n d (by rw [hn]; simp)
    exact ⟨d, tl, rfl, this.1, this.2⟩

/-- Evaluating the unsigned `atoi` embedding on an exact representation. -/
theorem atoiU_natBytes (max n : Nat) (h : n ≤ max) :
    atoiU max (natBytes n) = some n := by
  obtain ⟨d, tl, heq, hd1, hd2⟩ := natBytes_head n
  unfold atoiU
  have h45 : ¬((natBytes n).head? = some 45) := by rw [heq]; simp; omega
  have h43 : ¬((natBytes n).head? = some 43) := by rw [heq]; simp; omega
  rw [if_neg h45, if_neg h43, atoiCore_natBytes max n h]

/-- Evaluating the `i64` `atoi` embedding on an exact representation. -/
theorem atoiI64_intBytes (i : Int) (h1 : -(i64MinAbs : Int) ≤ i)
    (h2 : i ≤ (i64Max : Int)) : atoiI64 (intBytes i) = some i := by
  have hmin : (i64MinAbs : Int) = 9223372036854775808 := by norm_num [i64MinAbs]
  have hmax : (i64Max : Int) = 9223372036854775807 := by norm_num [i64Max]
  rw [hmin] at h1
  rw [hmax] at h2
  unfold atoiI64 intBytes
  by_cases hneg : i < 0
  · rw [if_pos hneg]
    simp only [List.singleton_append, List.head?_cons, List.tail_cons, if_pos rfl]
    have habs : i.natAbs ≤ i64MinAbs := by unfold i64MinAbs; omega
    rw [atoiCore_natBytes _ _ habs]
    have hval : -(i.natAbs : Int) = i := by omega
    exact congrArg some hval
  · rw [if_neg hneg]
    obtain ⟨d, tl, heq, hd1, hd2⟩ := natBytes_head i.natAbs
    simp only [List.nil_append]
    have h45 : ¬((natBytes i.natAbs).head? = some 45) := by rw [heq]; simp; omega
    have h43 : ¬((natBytes i.natAbs).head? = some 43) := by rw [heq]; simp; omega
    have habs : i.natAbs ≤ i64Max := by unfold i64Max; omega
    rw [if_neg h45, if_neg h43, atoiCore_natBytes _ _ habs]
    have hval : (i.natAbs : Int) = i := by omega
    exact congrArg some hval

/-- A list without carriage returns has no CRLF. -/
theorem hasCRLF_of_no13 (l : List Nat) (h : ∀ b ∈ l, b ≠ 13) : hasCRLF l = false := by
  induction l with
  | nil => rfl
  | cons b l ih =>
    simp only [hasCRLF, Bool.or_eq_false_iff, Bool.and_eq_false_iff]
    exact ⟨Or.inl (by simpa using h b (by simp)), ih (fun x hx => h x (by simp [hx]))⟩

/-- Digit lists have no CRLF. -/
theorem hasCRLF_natBytes (n : Nat) : hasCRLF (natBytes n) = false := by
  apply hasCRLF_of_no13
  intro b hb
  have := natBytes_digits n b hb
  omega

/-- Signed decimal representations have no CRLF. -/
theorem hasCRLF_intBytes (i : Int) : hasCRLF (intBytes i) = false := by
  apply hasCRLF_of_no13
  intro b hb
  unfold intBytes at hb
  rcases List.mem_append.1 hb with h | h
  · split at h <;> simp at h
    omega
  · have := natBytes_digits i.natAbs b h
    omega

/-- Splitting at the first CRLF of `l ++ CRLF ++ r` yields `(l, r)` when `l`
itself has no CRLF. -/
theorem readLine_append (l : List Nat) (r : List Nat) (h : hasCRLF l = false) :
    readLine (l ++ 13 :: 10 :: r) = some (l, r) := by
  induction l with
  | nil => simp [readLine]
  | cons b l ih =>
    simp only [hasCRLF, Bool.or_eq_false_iff, Bool.and_eq_false_iff] at h
    rw [List.cons_append, readLine]
    have hcond : ¬(b = 13 ∧ (l ++ 13 :: 10 :: r).head? = some 10) := by
      rintro ⟨rfl, hh⟩
      cases l with
      | nil => simp at hh
      | cons c l2 =>
        simp at hh
        subst hh
        rcases h.1 with h13 | h10
        · simp at h13
        · simp at h10
    rw [if_neg hcond, ih h.2]
    rfl

/-- Length of a signed decimal representation. -/
theorem intBytes_length (i : Int) :
    (intBytes i).length = (if i < 0 then 1 else 0) + intLen i.natAbs := by
  unfold intBytes
  split <;> (simp [natBytes_length]; try omega)

/-- The length fold shifts over its accumulator. -/
theorem lenFold_acc (fs : List Resp) : ∀ a : Nat, Resp.lenFold a fs = a + Resp.lenFold 0 fs := by
  induction fs with
  | nil => intro a; simp [Resp.lenFold]
  | cons f fs ih =>
    intro a
    simp only [Resp.lenFold]
    rw [ih (a + Resp.len f), ih (0 + Resp.len f)]
    omega

mutual
/-- The serialized byte count of a frame equals `Resp::len` of the frame. -/
theorem serialize_length (f : Resp) : (serialize f).length = Resp.len f := by
  cases f with
  | Simple s => simp [serialize, Resp.len]; omega
  | Err m => simp [serialize, Resp.len]; omega
  | Bulk b => simp [serialize, Resp.len, natBytes_length]; omega
  | Array xs =>
    simp [serialize, Resp.len, natBytes_length, serializeList_length xs]
    omega
  | Integer i => simp [serialize, Resp.len, intBytes_length]; omega
  | Data b => simp [serialize, Resp.len, natBytes_length]; omega
  | Null => simp [serialize, Resp.len]

/-- The serialized byte count of a frame list equals the length fold. -/
theorem serializeList_length (fs : List Resp) :
    (serializeList fs).length = Resp.lenFold 0 fs := by
  cases fs with
  | nil => simp [serializeList, Resp.lenFold]
  | cons f fs =>
    simp only [serializeList, List.length_append, serialize_length f,
      serializeList_length fs, Resp.lenFold]
    rw [lenFold_acc fs (0 + Resp.len f)]
    omega
end

/-- Serializations are never empty. -/
theorem serialize_length_pos (f : Resp) : 0 < (serialize f).length := by
  cases f <;> simp [serialize]

mutual
/-- Parsing the serialization of a well-formed frame, followed by any
continuation bytes, consumes exactly the serialized bytes and rebuilds the
frame, for any fuel beyond the input length. -/
theorem parse_serialize (fuel : Nat) (f : Resp) (hf : wfResp f = true)
    (rest : List Nat) (hfuel : (serialize f ++ rest).length < fuel) :
    parseRespF fuel (serialize f ++ rest) = .ok (f, rest) := by
  cases fuel with
  | zero => exact absurd hfuel (Nat.not_lt_zero _)
  | succ fz =>
    cases f with
    | Simple s =>
      simp only [wfResp, Bool.and_eq_true, Bool.not_eq_true'] at hf
      have hshape : serialize (Resp.Simple s) ++ rest = 43 :: (s ++ 13 :: 10 :: rest) := by
        simp [serialize]
      rw [hshape]
      simp [parseRespF, readLine_append s rest hf.1, hf.2]
    | Err m => simp [wfResp] at hf
    | Bulk b =>
      simp only [wfResp, decide_eq_true_eq] at hf
      obtain ⟨d, tl, hnb, hd1, hd2⟩ := natBytes_head b.length
      have hshape : serialize (Resp.Bulk b) ++ rest =
          36 :: (natBytes b.length ++ 13 :: 10 :: (b ++ 13 :: 10 :: rest)) := by
        simp [serialize]
      rw [hshape]
      have hlen2 : ¬((natBytes b.length ++ 13 :: 10 :: (b ++ 13 :: 10 :: rest)).length < 2) := by
        rw [hnb]
        simp only [List.cons_append, List.length_cons, List.length_append]
        omega
      have htake : ¬((natBytes b.length ++ 13 :: 10 :: (b ++ 13 :: 10 :: rest)).take 2
          = [45, 49]) := by
        rw [hnb]
        intro hC
        rw [List.cons_append, List.take_succ_cons] at hC
        injection hC with hC1 hC2
        omega
      have hmax : b.length ≤ u64Max := by
        have := hf
        unfold u64Mod at this
        unfold u64Max
        omega
      have hc1 : ¬((b ++ 13 :: 10 :: rest).length < b.length) := by
        simp only [List.length_append, List.length_cons]
        omega
      have hc2 : ¬((b ++ 13 :: 10 :: rest).length < b.length + 2) := by
        simp only [List.length_append, List.length_cons]
        omega
      have htk : (b ++ 13 :: 10 :: rest).take b.length = b :=
        List.take_left b (13 :: 10 :: rest)
      have hdp : (b ++ 13 :: 10 :: rest).drop (b.length + 2) = rest := by
        have hsplit : b ++ 13 :: 10 :: rest = (b ++ [13, 10]) ++ rest := by simp
        rw [hsplit]
        have hlen : (b ++ [13, 10]).length = b.length + 2 := by simp
        rw [← hlen, List.drop_left]
      simp [parseRespF, hlen2, htake,
        readLine_append (natBytes b.length) (b ++ 13 :: 10 :: rest) (hasCRLF_natBytes b.length),
        atoiU_natBytes u64Max b.length hmax, hc1, hc2, htk, hdp]
      split_ifs with h1 h2
      · omega
      · omega
      · rfl
    | Array xs =>
      simp only [wfResp, Bool.and_eq_true, decide_eq_true_eq] at hf
      have hshape : serialize (Resp.Array xs) ++ rest =
          42 :: (natBytes xs.length ++ 13 :: 10 :: (serializeList xs ++ rest)) := by
        simp [serialize]
      rw [hshape] at hfuel ⊢
      have hnb1 : 1 ≤ (natBytes xs.length).length := by
        obtain ⟨d, tl, hnb, _, _⟩ := natBytes_head xs.length
        simp [hnb]
      have hmax : xs.length ≤ u64Max := by
        have := hf.1
        unfold u64Mod at this
        unfold u64Max
        omega
      have hfuel2 : (serializeList xs ++ rest).length < fz := by
        simp only [List.length_cons, List.length_append] at hfuel
        simp only [List.length_append]
        omega
      simp [parseRespF,
        readLine_append (natBytes xs.length) (serializeList xs ++ rest)
          (hasCRLF_natBytes xs.length),
        atoiU_natBytes u64Max xs.length hmax,
        parseLoop_serializeList fz xs hf.2 rest hfuel2]
    | Integer i =>
      simp only [wfResp, decide_eq_true_eq] at hf
      have hshape : serialize (Resp.Integer i) ++ rest = 58 :: (intBytes i ++ 13 :: 10 :: rest) := by
        simp [serialize]
      rw [hshape]
      simp [parseRespF, readLine_append (intBytes i) rest (hasCRLF_intBytes i),
        atoiI64_intBytes i hf.1 hf.2]
    | Data b => simp [wfResp] at hf
    | Null =>
      have hshape : serialize Resp.Null ++ rest = 36 :: 45 :: 49 :: 13 :: 10 :: rest := by
        simp [serialize]
      rw [hshape]
      have hlen2 : ¬((45 :: 49 :: 13 :: 10 :: rest).length < 2) := by
        simp only [List.length_cons]
        omega
      have hlen4 : ¬((45 :: 49 :: 13 :: 10 :: rest).length < 4) := by
        simp only [List.length_cons]
        omega
      simp [parseRespF, hlen2, hlen4]
      split_ifs with h1 h2
      · omega
      · omega
      · rfl
termination_by (fuel, 0)

/-- The array-element loop of `Resp::parse` rebuilds a serialized run of
well-formed frames element by element. -/
theorem parseLoop_serializeList (fuel : Nat) (fs : List Resp) (hf : wfList fs = true)
    (rest : List Nat) (hfuel : (serializeList fs ++ rest).length < fuel) :
    parseLoop (fun bs => parseRespF fuel bs) fs.length (serializeList fs ++ rest) =
      .ok (fs, rest) := by
  cases fs with
  | nil => simp [serializeList, parseLoop]
  | cons f fs2 =>
    simp only [wfList, Bool.and_eq_true] at hf
    have hassoc : serializeList (f :: fs2) ++ rest = serialize f ++ (serializeList fs2 ++ rest) := by
      simp [serializeList]
    rw [hassoc] at hfuel ⊢
    have hfuel2 : (serializeList fs2 ++ rest).length < fuel := by
      have := serialize_length_pos f
      simp only [List.length_append] at hfuel ⊢
      omega
    simp only [List.length_cons, parseLoop,
      parse_serialize fuel f hf.1 (serializeList fs2 ++ rest) hfuel,
      parseLoop_serializeList fuel fs2 hf.2 rest hfuel2]
termination_by (fuel, fs.length + 1)
end

/-- C1: counterexample to the full round-trip claim.  A `Data` frame does
not survive the round trip (its serialization omits the trailing CRLF that
`Resp::parse` demands after a `$` payload, so parsing errors), and a
`Simple` frame whose payload embeds a CRLF is truncated by `read_line`;
hence `parse(serialize(f)) == f` does not hold over all six frame kinds. -/
theorem resp_roundtrip_fails_on_data :
    parseResp (serialize (Resp.Data [])) = .error .incomplete ∧
    parseResp (serialize (Resp.Simple [97, 13, 10, 98])) =
      .ok (Resp.Simple [97], [98, 13, 10]) := by
  have h1 : serialize (Resp.Data []) = [36, 48, 13, 10] := by
    simp [serialize, natBytes]
  have h2 : serialize (Resp.Simple [97, 13, 10, 98]) = [43, 97, 13, 10, 98, 13, 10] := by
    simp [serialize]
  rw [h1, h2]
  exact ⟨rfl, rfl⟩

/-- C1 (amended): for the five frame kinds other than the snapshot-only
`Data` — under the payload well-formedness a running server guarantees
(UTF-8 `Simple` text without embedded CRLF, `i64`-ranged integers, `usize`
lengths) — parsing the serialization yields the frame back with nothing
left over; and for every frame the serialized byte count equals
`Resp::len`. -/
theorem resp_roundtrip_and_length (f : Resp) :
    (wfResp f = true → parseResp (serialize f) = .ok (f, [])) ∧
    (serialize f).length = Resp.len f := by
  constructor
  · intro hf
    have h := parse_serialize ((serialize f).length + 1) f hf [] (by simp)
    simpa [parseResp] using h
  · exact serialize_length f

/-- Witness for the amended C1 round trip at a nested concrete frame
covering Null, a negative integer, an empty bulk and a nested array. -/
theorem resp_roundtrip_and_length_witness :
    parseResp (serialize (Resp.Array [Resp.Array [bulk "hey"], Resp.Integer (-5), bulk "",
      Resp.Null, simple "OK"])) =
      .ok (Resp.Array [Resp.Array [bulk "hey"], Resp.Integer (-5), bulk "",
        Resp.Null, simple "OK"], []) ∧
    (serialize (Resp.Array [Resp.Array [bulk "hey"], Resp.Integer (-5), bulk "",
      Resp.Null, simple "OK"])).length =
      Resp.len (Resp.Array [Resp.Array [bulk "hey"], Resp.Integer (-5), bulk "",
        Resp.Null, simple "OK"]) :=
  ⟨(resp_roundtrip_and_length _).1
      (by simp [wfResp, wfList, bulk, simple, ascii, hasCRLF, u64Mod, i64Max, i64MinAbs]
          ; decide),
    (resp_roundtrip_and_length _).2⟩

/-- C2: evaluating `Resp::check` at buffers that are strict prefixes of
valid frames and stop right after a `$` byte.  On `"$"` (a prefix of the
Null frame `"$-1\r\n"`) and on `"*1\r\n$"` (a prefix of `"*1\r\n$4\r\nPING\r\n"`)
the embedded check reaches the `&cur.chunk()[..2]` probe with fewer than two
bytes remaining and panics instead of returning `Incomplete`; the two full
frames check fine, consuming everything. -/
theorem check_panics_on_dollar_cut :
    checkResp [36] = .error .panicked ∧
    checkResp [42, 49, 13, 10, 36] = .error .panicked ∧
    checkResp [36, 45, 49, 13, 10] = .ok [] ∧
    checkResp [42, 49, 13, 10, 36, 52, 13, 10, 80, 73, 78, 71, 13, 10] = .ok [] :=
  ⟨rfl, rfl, rfl, rfl⟩

/-- Unfolding of the strict id order. -/
theorem idLt_iff (a b : EntryId) :
    idLt a b = true ↔
      a.ms_time < b.ms_time ∨ (a.ms_time = b.ms_time ∧ a.sq_num < b.sq_num) := by
  simp [idLt]

/-- The strict id order is irreflexive. -/
theorem idLt_irrefl (a : EntryId) : idLt a a = false := by
  simp [idLt]

/-- The strict id order is transitive. -/
theorem idLt_trans {a b c : EntryId} (h1 : idLt a b = true) (h2 : idLt b c = true) :
    idLt a c = true := by
  rw [idLt_iff] at *
  omega

/-- The strict id order is asymmetric. -/
theorem idLt_asymm {a b : EntryId} (h : idLt a b = true) : idLt b a = false := by
  rw [idLt_iff] at h
  rw [← Bool.not_eq_true, idLt_iff]
  omega

/-- Totality: a failed non-strict comparison flips strictly. -/
theorem idLe_false_lt {a b : EntryId} (h : idLe a b = false) : idLt b a = true := by
  obtain ⟨ams, asq⟩ := a
  obtain ⟨bms, bsq⟩ := b
  simp only [idLe, idLt, Bool.or_eq_false_iff, decide_eq_false_iff_not, EntryId.mk.injEq,
    decide_eq_true_eq] at h ⊢
  omega

/-- Negated strict order is the reverse non-strict order. -/
theorem not_idLt (a b : EntryId) : (!idLt a b) = idLe b a := by
  obtain ⟨ams, asq⟩ := a
  obtain ⟨bms, bsq⟩ := b
  simp only [idLt, idLe, ← decide_not, ← Bool.decide_or, EntryId.mk.injEq]
  apply decide_eq_decide.mpr
  constructor
  · intro h
    omega
  · intro h
    omega

/-- Inserting a key above every key of a sorted association list appends. -/
theorem btreeInsert_top (k : EntryId) (v : StreamValues)
    (l : List (EntryId × StreamValues)) (h : ∀ e ∈ l, idLt e.1 k = true) :
    btreeInsert k v l = l ++ [(k, v)] := by
  induction l with
  | nil => rfl
  | cons e l ih =>
    have he := h e (by simp)
    have h1 : ¬(idLt k e.1 = true) := by
      rw [idLt_asymm he]
      simp
    have h2 : ¬(k = e.1) := by
      intro hk
      rw [hk, idLt_irrefl] at he
      exact absurd he (by simp)
    simp only [btreeInsert, if_neg h1, if_neg h2, ih (fun x hx => h x (by simp [hx]))]
    rfl

/-- In a sorted association list, every element is the last one or below
it. -/
theorem sorted_le_last (l : List (EntryId × StreamValues))
    (hs : l.Pairwise (fun a b => idLt a.1 b.1 = true)) (x : EntryId × StreamValues)
    (hx : x ∈ l) (t : EntryId × StreamValues) (ht : l.getLast? = some t) :
    x = t ∨ idLt x.1 t.1 = true := by
  induction l with
  | nil => simp at hx
  | cons e l ih =>
    cases l with
    | nil =>
      simp at hx ht
      subst hx
      subst ht
      exact Or.inl rfl
    | cons f l2 =>
      rw [List.getLast?_cons_cons] at ht
      rcases List.mem_cons.1 hx with hxe | hxm
      · subst hxe
        right
        obtain ⟨hne, hteq⟩ := List.mem_getLast?_eq_getLast (Option.mem_def.mpr ht)
        have htm : t ∈ f :: l2 := by
          rw [hteq]
          exact List.getLast_mem hne
        exact (List.pairwise_cons.1 hs).1 t htm
      · exact ih (List.pairwise_cons.1 hs).2 hxm ht

/-- A successful non-`Auto` generation yields an id strictly above the
current top, provided the top's sequence number leaves room for the `u64`
increment. -/
theorem autoGenerate_gt_top (spec : MaybeAuto) (hns : spec ≠ .Auto) (now : Nat)
    (s : Strm) (id : EntryId) (h : spec.autoGenerate now s = .ok id)
    (t : EntryId) (vs : StreamValues) (ht : s.lastKV = some (t, vs))
    (hsq : t.sq_num < u64Max) : idLt t id = true := by
  cases spec with
  | Auto => exact absurd rfl hns
  | Set ms sq =>
    simp only [MaybeAuto.autoGenerate, ht] at h
    by_cases hle : idLe ⟨ms, sq⟩ t = true
    · simp [hle] at h
    · rw [if_neg hle] at h
      injection h with h2
      rw [← h2]
      exact idLe_false_lt (by simpa using hle)
  | AutoSeq ms =>
    simp only [MaybeAuto.autoGenerate, ht] at h
    by_cases hlt : ms < t.ms_time
    · simp [hlt] at h
    · rw [if_neg hlt] at h
      injection h with h2
      have hwrap : (t.sq_num + 1) % u64Mod = t.sq_num + 1 := by
        apply Nat.mod_eq_of_lt
        unfold u64Max at hsq
        unfold u64Mod
        omega
      by_cases heq : ms = t.ms_time
      · rw [if_pos heq, hwrap] at h2
        rw [if_neg (by omega : ¬(asMillis ms = 0 ∧ t.sq_num + 1 = 0))] at h2
        rw [← h2, idLt_iff]
        dsimp only
        omega
      · rw [if_neg heq] at h2
        rw [← h2, idLt_iff]
        dsimp only
        exact Or.inl (by omega)

/-- Unfolding of the non-strict id order. -/
theorem idLe_iff (a b : EntryId) :
    idLe a b = true ↔
      a.ms_time < b.ms_time ∨ (a.ms_time = b.ms_time ∧ a.sq_num ≤ b.sq_num) := by
  obtain ⟨ams, asq⟩ := a
  obtain ⟨bms, bsq⟩ := b
  simp only [idLe, idLt, Bool.or_eq_true, decide_eq_true_eq, EntryId.mk.injEq]
  omega

/-- Lookup after inserting a key finds the inserted value. -/
theorem dbLookup_insert_self (db : DbMap) (k : List Nat) (v : Value) :
    dbLookup (dbInsert db k v) k = some v := by
  induction db with
  | nil => simp [dbInsert, dbLookup, List.find?]
  | cons e db ih =>
    obtain ⟨k2, v2⟩ := e
    by_cases h : k2 = k
    · subst h
      simp [dbInsert, dbLookup, List.find?]
    · have hb : ((k2, v2).1 == k) = false := by simpa using h
      simp only [dbInsert, if_neg h]
      simp only [dbLookup, List.find?, hb]
      exact ih

/-- Structure of a successful `Db::xadd`: the key held no value or a
stream, generation succeeded on that stream, and the result map stores the
stream with the new entry inserted (keeping the old expiration). -/
theorem xadd_ok_shape (db : DbMap) (now : Nat) (key : List Nat) (spec : MaybeAuto)
    (kv : StreamValues) (res : List Nat) (id : EntryId) (db2 : DbMap)
    (hx : Db.xadd db now ⟨key, spec, kv⟩ = .ok (res, id, db2)) :
    ∃ (inner : List (EntryId × StreamValues)) (exp : Option Nat),
      ((dbLookup db key = none ∧ inner = [] ∧ exp = none) ∨
        (∃ v, dbLookup db key = some v ∧ v.v_type = .stream ⟨inner⟩ ∧ exp = v.expiration)) ∧
      spec.autoGenerate now ⟨inner⟩ = .ok id ∧
      db2 = dbInsert db key ⟨.stream ⟨btreeInsert id kv inner⟩, exp⟩ := by
  unfold Db.xadd at hx
  cases hdl : dbLookup db key with
  | none =>
    simp only [hdl] at hx
    cases hag : spec.autoGenerate now ⟨[]⟩ with
    | error e =>
      simp only [hag] at hx
      exact absurd hx (by simp)
    | ok id2 =>
      simp only [hag, Except.ok.injEq, Prod.mk.injEq] at hx
      obtain ⟨h1, h2, h3⟩ := hx
      subst h2
      exact ⟨[], none, Or.inl ⟨rfl, rfl, rfl⟩, hag, h3.symm⟩
  | some v =>
    simp only [hdl] at hx
    cases hvt : v.v_type with
    | str b =>
      simp only [hvt] at hx
      exact absurd hx (by simp)
    | stream s =>
      simp only [hvt] at hx
      cases hag : spec.autoGenerate now s with
      | error e =>
        simp only [hag] at hx
        exact absurd hx (by simp)
      | ok id2 =>
        simp only [hag, Except.ok.injEq, Prod.mk.injEq] at hx
        obtain ⟨h1, h2, h3⟩ := hx
        subst h2
        refine ⟨s.inner, v.expiration, Or.inr ⟨v, rfl, ?_, rfl⟩, ?_, h3.symm⟩
        · rw [hvt]
        · have hs : (⟨s.inner⟩ : Strm) = s := rfl
          rw [hs]
          exact hag

/-- Invariant of a run of non-`Auto` XADD calls: provided no produced or
pre-existing top sequence number sits at `u64::MAX` (where the increment
would wrap), the successful ids are strictly increasing and each lies
strictly above the stream top present before the run. -/
theorem runXadds_invariant (key : List Nat) :
    ∀ (calls : List (Nat × MaybeAuto × StreamValues)) (db : DbMap),
      (∀ c ∈ calls, c.2.1 ≠ MaybeAuto.Auto) →
      dbStreamOk db key →
      (∀ t, dbTop db key = some t → t.sq_num < u64Max) →
      (∀ id ∈ (runXadds key calls db).1, id.sq_num < u64Max) →
      (runXadds key calls db).1.Pairwise (fun a b => idLt a b = true) ∧
      ∀ id ∈ (runXadds key calls db).1, ∀ t, dbTop db key = some t → idLt t id = true := by
  intro calls
  induction calls with
  | nil =>
    intro db _ _ _ _
    simp [runXadds]
  | cons c calls ih =>
    obtain ⟨now, spec, kv⟩ := c
    intro db hna hok htb hb
    cases hx : Db.xadd db now ⟨key, spec, kv⟩ with
    | error e =>
      simp only [runXadds, hx] at hb ⊢
      exact ih db (fun c2 hc2 => hna c2 (by simp [hc2])) hok htb hb
    | ok r =>
      obtain ⟨res, id, db2⟩ := r
      obtain ⟨inner, exp, hcase, hag, hdb2⟩ :=
        xadd_ok_shape db now key spec kv res id db2 hx
      simp only [runXadds, hx] at hb ⊢
      have hspec : spec ≠ MaybeAuto.Auto := hna (now, spec, kv) (by simp)
      have hidb : id.sq_num < u64Max := hb id (by simp)
      have hsorted : inner.Pairwise (fun a b => idLt a.1 b.1 = true) := by
        rcases hcase with ⟨_, hinner, _⟩ | ⟨v, hv, hvt, _⟩
        · rw [hinner]
          exact List.Pairwise.nil
        · exact hok v hv ⟨inner⟩ hvt
      have htopeq : dbTop db key = (inner.getLast?).map (fun e => e.1) := by
        rcases hcase with ⟨hnone, hinner, _⟩ | ⟨v, hv, hvt, _⟩
        · rw [hinner]
          simp [dbTop, hnone]
        · simp [dbTop, hv, hvt, Strm.lastKV]
      have hgt : ∀ t, dbTop db key = some t → idLt t id = true := by
        intro t ht
        rw [htopeq] at ht
        simp only [Option.map_eq_some'] at ht
        obtain ⟨e, he, hefst⟩ := ht
        subst hefst
        have hlast : (⟨inner⟩ : Strm).lastKV = some (e.1, e.2) := by
          simp only [Strm.lastKV]
          rw [he]
        have hsq : e.1.sq_num < u64Max := htb e.1 (by rw [htopeq, he]; rfl)
        exact autoGenerate_gt_top spec hspec now ⟨inner⟩ id hag e.1 e.2 hlast hsq
      have halllt : ∀ e ∈ inner, idLt e.1 id = true := by
        intro e he
        cases hl : inner.getLast? with
        | none =>
          rw [List.getLast?_eq_none_iff] at hl
          rw [hl] at he
          simp at he
        | some last =>
          have htop : dbTop db key = some last.1 := by rw [htopeq, hl]; rfl
          have hlast := hgt last.1 htop
          rcases sorted_le_last inner hsorted e he last hl with heq | hlt2
          · rw [heq]
            exact hlast
          · exact idLt_trans hlt2 hlast
      have hins : btreeInsert id kv inner = inner ++ [(id, kv)] :=
        btreeInsert_top id kv inner halllt
      have hlook2 : dbLookup db2 key = some ⟨.stream ⟨inner ++ [(id, kv)]⟩, exp⟩ := by
        rw [hdb2, hins]
        exact dbLookup_insert_self db key _
      have hok2 : dbStreamOk db2 key := by
        intro v2 hv2 s2 hvt2
        rw [hlook2] at hv2
        injection hv2 with hv2
        rw [← hv2] at hvt2
        injection hvt2 with hvt2
        rw [← hvt2]
        rw [List.pairwise_append]
        refine ⟨hsorted, List.pairwise_singleton _ _, ?_⟩
        intro a ha b hbm
        simp only [List.mem_singleton] at hbm
        rw [hbm]
        exact halllt a ha
      have htop2 : dbTop db2 key = some id := by
        simp [dbTop, hlook2, Strm.lastKV]
      have htb2 : ∀ t, dbTop db2 key = some t → t.sq_num < u64Max := by
        intro t ht
        rw [htop2] at ht
        injection ht with ht
        rw [← ht]
        exact hidb
      have hb2 : ∀ x ∈ (runXadds key calls db2).1, x.sq_num < u64Max := by
        intro x hxm
        exact hb x (by simp [hxm])
      obtain ⟨hp2, hgt2⟩ := ih db2 (fun c2 hc2 => hna c2 (by simp [hc2])) hok2 htb2 hb2
      constructor
      · rw [List.pairwise_cons]
        exact ⟨fun y hy => hgt2 y hy id htop2, hp2⟩
      · intro x hxm t ht
        rcases List.mem_cons.1 hxm with hxe | hxm2
        · rw [hxe]
          exact hgt t ht
        · exact idLt_trans (hgt t ht) (hgt2 x hxm2 id htop2)

/-- A `<ms>-*` generation never chooses an id below `(0,1)`: for a zero
millisecond part the sequence is bumped to at least 1, otherwise the
millisecond part is positive. -/
theorem autoSeq_ge_min (now ms : Nat) (s : Strm) (id : EntryId)
    (h : (MaybeAuto.AutoSeq ms).autoGenerate now s = .ok id) :
    idLe ⟨0, 1⟩ id = true := by
  simp only [MaybeAuto.autoGenerate] at h
  cases hl : s.lastKV with
  | none =>
    simp only [hl] at h
    injection h with h2
    rw [← h2, idLe_iff]
    dsimp only
    by_cases hms : asMillis ms = 0
    · rw [if_pos hms]
      unfold asMillis at hms
      omega
    · rw [if_neg hms]
      unfold asMillis at hms
      omega
  | some e =>
    obtain ⟨t, vs⟩ := e
    simp only [hl] at h
    by_cases hlt : ms < t.ms_time
    · simp [hlt] at h
    · rw [if_neg hlt] at h
      injection h with h2
      rw [← h2, idLe_iff]
      dsimp only
      unfold asMillis
      split_ifs <;> (unfold asMillis at *; omega)

/-- C4: counterexample to unrestricted monotonicity.  A run of two XADD
calls against one key — an explicit id at 5 ms followed by a bare `*` at a
clock reading of 3 ms — succeeds with the ids `(5ms,0)` then `(3ms,0)`,
the second strictly below the first: the `Auto` arm of
`MaybeAuto::auto_generate` never compares its clock against the stream
top.  The `Auto` arm also returns `(0,0)` on an empty stream at clock 0,
below the claimed floor `(0,1)`. -/
theorem xadd_auto_breaks_monotonicity :
    (runXadds [115] [(0, MaybeAuto.Set 5000000 0, [([97], [98])]),
      (3000000, MaybeAuto.Auto, [([97], [99])])] []).1
      = [⟨5000000, 0⟩, ⟨3000000, 0⟩] ∧
    idLt ⟨3000000, 0⟩ ⟨5000000, 0⟩ = true ∧
    MaybeAuto.Auto.autoGenerate 0 ⟨[]⟩ = .ok ⟨0, 0⟩ ∧
    idLe ⟨0, 1⟩ ⟨0, 0⟩ = false := by
  exact ⟨rfl, by decide, rfl, by decide⟩

/-- C4 (amended): for every run of XADD calls against one key whose id
arguments avoid the bare `*` form (explicit ids and `<ms>-*` only), on a
store whose stream at the key is sorted with a top sequence number below
`u64::MAX`, and where every produced sequence number stays below
`u64::MAX` (the release-build increment wraps), the successful ids are
strictly increasing in the (ms, seq) lexicographic order; moreover every
id chosen by a `<ms>-*` generation is at least `(0,1)`. -/
theorem xadd_ids_strictly_increase (key : List Nat)
    (calls : List (Nat × MaybeAuto × StreamValues)) (db : DbMap)
    (hna : ∀ c ∈ calls, c.2.1 ≠ MaybeAuto.Auto)
    (hsok : dbStreamOk db key)
    (htb : ∀ t, dbTop db key = some t → t.sq_num < u64Max)
    (hb : ∀ id ∈ (runXadds key calls db).1, id.sq_num < u64Max) :
    (runXadds key calls db).1.Pairwise (fun a b => idLt a b = true) ∧
    ∀ now ms s id, (MaybeAuto.AutoSeq ms).autoGenerate now s = .ok id →
      idLe ⟨0, 1⟩ id = true := by
  refine ⟨(runXadds_invariant key calls db hna hsok htb hb).1, ?_⟩
  intro now ms s id h
  exact autoSeq_ge_min now ms s id h

/-- Witness for the amended C4 at a concrete three-call run: ids `1-0`,
`1-5`, then `1-*` against a fresh key succeed with the strictly increasing
ids `(1ms,0) < (1ms,5) < (1ms,6)`. -/
theorem xadd_ids_strictly_increase_witness :
    (runXadds [115] [(0, MaybeAuto.Set 1000000 0, []), (0, MaybeAuto.Set 1000000 5, []),
      (0, MaybeAuto.AutoSeq 1000000, [])] []).1
      = [⟨1000000, 0⟩, ⟨1000000, 5⟩, ⟨1000000, 6⟩] ∧
    (runXadds [115] [(0, MaybeAuto.Set 1000000 0, []), (0, MaybeAuto.Set 1000000 5, []),
      (0, MaybeAuto.AutoSeq 1000000, [])] []).1.Pairwise
        (fun a b => idLt a b = true) := by
  refine ⟨rfl, ?_⟩
  exact (xadd_ids_strictly_increase [115]
    [(0, MaybeAuto.Set 1000000 0, []), (0, MaybeAuto.Set 1000000 5, []),
      (0, MaybeAuto.AutoSeq 1000000, [])] []
    (by decide)
    (by intro v hv; simp [dbLookup] at hv)
    (by intro t ht; simp [dbTop, dbLookup] at ht)
    (by decide)).1

/-- C5: counterexample to "with `*`, seq is chosen the same way".  The
`Auto` arm of `MaybeAuto::auto_generate` lacks the zero bump of the
`AutoSeq` arm: on an empty stream at clock 0 a bare `*` yields `(0,0)`
while `0-*` yields `(0,1)`.  Also, when the requested millisecond part is
below the stream top the `AutoSeq` arm errors rather than choosing
sequence 0. -/
theorem xadd_auto_ignores_zero_bump :
    MaybeAuto.Auto.autoGenerate 0 ⟨[]⟩ = .ok ⟨0, 0⟩ ∧
    (MaybeAuto.AutoSeq 0).autoGenerate 0 ⟨[]⟩ = .ok ⟨0, 1⟩ ∧
    (⟨0, 0⟩ : EntryId) ≠ ⟨0, 1⟩ ∧
    (MaybeAuto.AutoSeq 1000000).autoGenerate 0 ⟨[(⟨5000000, 0⟩, [])]⟩
      = .error smallEqMsg := by
  exact ⟨rfl, rfl, by decide, rfl⟩

/-- C5 (amended): id selection against a stream whose top entry is `t`
(with `t`'s sequence number below `u64::MAX`).  An explicit id fails with
the "equal or smaller" error exactly when it is at or below `t`, and
succeeds as given otherwise; `<ms>-*` fails exactly when `ms` is below
`t`'s, picks `t`'s sequence plus one at equal `ms`, and picks 0 — bumped
to 1 when `ms` is 0 — above it; `*` never fails and picks the clock's
millisecond reading with `t`'s sequence plus one at an equal reading and 0
otherwise, with no zero bump.  The textual id `0-0` is rejected at parse
time with the dedicated error, and a fresh `0-*` yields `0-1`. -/
theorem xadd_id_selection (now ms sq : Nat) (s : Strm) (t : EntryId) (vs : StreamValues)
    (hl : s.lastKV = some (t, vs)) (hsq : t.sq_num < u64Max) :
    ((MaybeAuto.Set ms sq).autoGenerate now s = .error smallEqMsg ↔
      idLe ⟨ms, sq⟩ t = true) ∧
    (idLe ⟨ms, sq⟩ t = false →
      (MaybeAuto.Set ms sq).autoGenerate now s = .ok ⟨ms, sq⟩) ∧
    ((MaybeAuto.AutoSeq ms).autoGenerate now s = .error smallEqMsg ↔ ms < t.ms_time) ∧
    (ms = t.ms_time →
      (MaybeAuto.AutoSeq ms).autoGenerate now s = .ok ⟨ms, t.sq_num + 1⟩) ∧
    (t.ms_time < ms →
      (MaybeAuto.AutoSeq ms).autoGenerate now s
        = .ok ⟨ms, if asMillis ms = 0 then 1 else 0⟩) ∧
    (MaybeAuto.Auto.autoGenerate now s
      = .ok ⟨now, if t.ms_time = now then t.sq_num + 1 else 0⟩) ∧
    xaddParse [Resp.Bulk (ascii "s"), Resp.Bulk (ascii "0-0"),
        Resp.Bulk (ascii "a"), Resp.Bulk (ascii "b")]
      = .error "ERR The ID specified in XADD must be greater than 0-0" ∧
    (MaybeAuto.AutoSeq 0).autoGenerate now ⟨[]⟩ = .ok ⟨0, 1⟩ := by
  have hmod : (t.sq_num + 1) % u64Mod = t.sq_num + 1 := by
    apply Nat.mod_eq_of_lt
    unfold u64Max at hsq
    unfold u64Mod
    omega
  refine ⟨?_, ?_, ?_, ?_, ?_, ?_, rfl, rfl⟩
  · simp only [MaybeAuto.autoGenerate, hl]
    by_cases hle : idLe ⟨ms, sq⟩ t = true
    · simp [hle]
    · simp [hle]
  · intro hle
    simp [MaybeAuto.autoGenerate, hl, hle]
  · simp only [MaybeAuto.autoGenerate, hl]
    by_cases h1 : ms < t.ms_time
    · simp [h1]
    · simp [h1]
  · intro h2
    subst h2
    simp [MaybeAuto.autoGenerate, hl, hmod]
  · intro h3
    have hne : ¬ ms < t.ms_time := by omega
    have hne2 : ¬ ms = t.ms_time := by omega
    simp [MaybeAuto.autoGenerate, hl, hne, hne2]
  · simp only [MaybeAuto.autoGenerate, hl, hmod]

/-- Witness for the amended C5 against the concrete stream topped by
`(5ms,2)`: the explicit id `5-1` is rejected, `5-*` picks `(5ms,3)`, and
`*` at a clock reading of 7 ns picks `(7ns,0)`. -/
theorem xadd_id_selection_witness :
    (MaybeAuto.Set 5000000 1).autoGenerate 7 ⟨[(⟨5000000, 2⟩, [])]⟩
      = .error smallEqMsg ∧
    (MaybeAuto.AutoSeq 5000000).autoGenerate 7 ⟨[(⟨5000000, 2⟩, [])]⟩
      = .ok ⟨5000000, 3⟩ ∧
    MaybeAuto.Auto.autoGenerate 7 ⟨[(⟨5000000, 2⟩, [])]⟩ = .ok ⟨7, 0⟩ := by
  obtain ⟨h1, h2, h3, h4, h5, h6, h7, h8⟩ :=
    xadd_id_selection 7 5000000 1 ⟨[(⟨5000000, 2⟩, [])]⟩ ⟨5000000, 2⟩ [] rfl (by decide)
  refine ⟨h1.mpr (by decide), h4 rfl, ?_⟩
  rw [h6, if_neg (by decide)]

/-- Entries surviving the count limiter come from the underlying list. -/
theorem mem_iterWithCount (cnt : Option Nat) (l : List (EntryId × StreamValues))
    (e : EntryId × StreamValues) (he : e ∈ iterWithCount cnt l) : e ∈ l := by
  cases cnt with
  | none => exact he
  | some c => exact List.take_subset c l he

/-- C6: counterexample to the exclusive-bound claim.  A watcher blocked on
an explicit id is woken by an append carrying exactly that id, and the
post-unblock read (`id..`, an inclusive range) then returns the entry
whose id equals the given id; a `$` watcher is woken by an append of any
id, including `(0,0)`, with no comparison against the pre-call top. -/
theorem xread_returns_equal_id_after_unblock :
    xreadWakes ([107], MaybeTopId.NotTop ⟨5000000, 3⟩) ([107], ⟨5000000, 3⟩) = true ∧
    postUnblockRead [([107], ⟨.stream ⟨[(⟨5000000, 3⟩, [([97], [98])])]⟩, none⟩)]
        [107] ⟨5000000, 3⟩ none
      = some (Resp.Array [Resp.Bulk [107], Resp.Array
          [Resp.Array [Resp.Bulk (idBytes ⟨5000000, 3⟩),
            Resp.Array [Resp.Bulk [97], Resp.Bulk [98]]]]]) ∧
    xreadWakes ([107], MaybeTopId.Top) ([107], ⟨0, 0⟩) = true := by
  refine ⟨by decide, ?_, by decide⟩
  rfl

/-- C6 (amended): the immediate read of XREAD treats a given id as an
exclusive lower bound (every returned entry lies strictly above it), but
the post-unblock read uses the inclusive range `id..` from the notified
id; a watcher with an explicit id wakes on an append to its key at or
above that id (not only strictly above), and a `$` watcher wakes on any
append to its key. -/
theorem xread_bounds (lb : EntryId) (inner : List (EntryId × StreamValues))
    (count : Option Nat) (key k2 : List Nat) (id : EntryId) :
    (∀ e ∈ iterWithCount count (rangeFromExcl lb inner), idLt lb e.1 = true) ∧
    (∀ e ∈ iterWithCount count (rangeFromIncl lb inner), idLe lb e.1 = true) ∧
    xreadWakes (key, MaybeTopId.NotTop lb) (k2, id) = (k2 == key && idLe lb id) ∧
    xreadWakes (key, MaybeTopId.Top) (k2, id) = (k2 == key) := by
  refine ⟨?_, ?_, ?_, ?_⟩
  · intro e he
    exact (List.mem_filter.1 (mem_iterWithCount count _ e he)).2
  · intro e he
    exact (List.mem_filter.1 (mem_iterWithCount count _ e he)).2
  · simp only [xreadWakes]
    rw [not_idLt id lb]
  · simp [xreadWakes]

/-- Witness for the amended C6 at a two-entry stream and the bound
`(1,0)`: the exclusive range only yields the strictly greater id `(2,0)`,
the inclusive range also yields `(1,0)` itself, and the wake test at the
bound id evaluates via the non-strict comparison. -/
theorem xread_bounds_witness :
    idLt ⟨1, 0⟩ (⟨2, 0⟩ : EntryId) = true ∧
    idLe ⟨1, 0⟩ (⟨1, 0⟩ : EntryId) = true ∧
    xreadWakes ([107], MaybeTopId.NotTop ⟨1, 0⟩) ([107], ⟨1, 0⟩)
      = (([107] : List Nat) == [107] && idLe ⟨1, 0⟩ ⟨1, 0⟩) := by
  obtain ⟨h1, h2, h3, h4⟩ :=
    xread_bounds ⟨1, 0⟩ [(⟨1, 0⟩, []), (⟨2, 0⟩, [])] none [107] [107] ⟨1, 0⟩
  exact ⟨h1 (⟨2, 0⟩, []) (by decide), h2 (⟨1, 0⟩, []) (by decide), h3⟩

/-- C7: counterexample to "any lookup at or after the expiration instant
observes the entry as missing".  After the expiration instant a GET does
delete the key and return nothing, but a TYPE lookup on the same store
still reports "string": `Type::apply_and_respond` reads the map with no
expiration check. -/
theorem type_reports_expired_key :
    dbGet [([107], ⟨.str [118], some 5⟩)] [107] 6 = (none, []) ∧
    typeOf [([107], ⟨.str [118], some 5⟩)] [107] = ascii "string" ∧
    ascii "string" ≠ ascii "none" := by
  exact ⟨rfl, rfl, by decide⟩

/-- C7 (amended): after `SET k v PX d` (absolute expiration instant
`exp`), a GET strictly before `exp` returns the stored value and leaves
the map unchanged; a GET at or after `exp` observes the entry as missing
and deletes it; but TYPE reads the map without any expiration check and
reports "string" for the key regardless of the clock. -/
theorem set_px_get_expiry (db : DbMap) (k v : List Nat) (exp now2 : Nat) :
    (now2 < exp →
      dbGet (Db.set db ⟨k, .str v, some exp⟩) k now2
        = (some ⟨.str v, some exp⟩, Db.set db ⟨k, .str v, some exp⟩)) ∧
    (exp ≤ now2 →
      dbGet (Db.set db ⟨k, .str v, some exp⟩) k now2
        = (none, dbRemove (Db.set db ⟨k, .str v, some exp⟩) k)) ∧
    typeOf (Db.set db ⟨k, .str v, some exp⟩) k = ascii "string" := by
  have hlook : dbLookup (Db.set db ⟨k, .str v, some exp⟩) k
      = some ⟨.str v, some exp⟩ := dbLookup_insert_self db k _
  refine ⟨?_, ?_, ?_⟩
  · intro h
    simp only [dbGet, hlook]
    rw [if_neg (by omega)]
  · intro h
    simp only [dbGet, hlook]
    rw [if_pos h]
  · simp only [typeOf, hlook]

/-- Witness for the amended C7: key `k`, value `v`, expiration instant 5;
a GET at clock 4 returns the value, a GET at clock 5 deletes, and TYPE
reports "string". -/
theorem set_px_get_expiry_witness :
    dbGet (Db.set [] ⟨[107], .str [118], some 5⟩) [107] 4
      = (some ⟨.str [118], some 5⟩, Db.set [] ⟨[107], .str [118], some 5⟩) ∧
    dbGet (Db.set [] ⟨[107], .str [118], some 5⟩) [107] 5
      = (none, dbRemove (Db.set [] ⟨[107], .str [118], some 5⟩) [107]) ∧
    typeOf (Db.set [] ⟨[107], .str [118], some 5⟩) [107] = ascii "string" := by
  obtain ⟨h1, -, h3⟩ := set_px_get_expiry [] [107] [118] 5 4
  obtain ⟨-, h2, -⟩ := set_px_get_expiry [] [107] [118] 5 5
  exact ⟨h1 (by decide), h2 (by decide), h3⟩

/-- C10: the post-unblock read of a woken XREAD assumes the notified key
still holds a stream: for every store in which the key is absent, and for
every store in which it holds a string value, the read hits the `unwrap`
panic (modelled as `none`) instead of producing a Null or error reply. -/
theorem xread_unwrap_panics (db : DbMap) (key : List Nat) (id : EntryId)
    (count : Option Nat) :
    (dbLookup db key = none → postUnblockRead db key id count = none) ∧
    (∀ b e, dbLookup db key = some ⟨.str b, e⟩ →
      postUnblockRead db key id count = none) := by
  refine ⟨?_, ?_⟩
  · intro h
    simp [postUnblockRead, h]
  · intro b e h
    simp [postUnblockRead, h, TypeV.asStream]

/-- Witness for C10: the deleted-key store and the string-key store both
drive the post-unblock read into the panic. -/
theorem xread_unwrap_panics_witness :
    postUnblockRead [] [107] ⟨0, 0⟩ none = none ∧
    postUnblockRead [([107], ⟨.str [118], none⟩)] [107] ⟨0, 0⟩ none = none := by
  exact ⟨(xread_unwrap_panics [] [107] ⟨0, 0⟩ none).1 rfl,
    (xread_unwrap_panics [([107], ⟨.str [118], none⟩)] [107] ⟨0, 0⟩ none).2
      [118] none rfl⟩

/-- C3: counterexample to "the offset is bumped before the command is
considered".  On a replica with offset 0, the 37-byte `REPLCONF GETACK *`
frame produces an `ACK 0` reply — not `ACK 37` — while the state moves to
offset 37: `Slave::handle_connection` increments the counter only after
`execute_slave` has already replied. -/
theorem getack_ack_excludes_own_frame :
    slaveStep 0 ⟨[], 0⟩ (Resp.Array [Resp.Bulk (ascii "replconf"),
        Resp.Bulk (ascii "getack"), Resp.Bulk (ascii "*")])
      = .ok (⟨[], 37⟩, some (ackResp 0)) ∧
    Resp.len (Resp.Array [Resp.Bulk (ascii "replconf"),
        Resp.Bulk (ascii "getack"), Resp.Bulk (ascii "*")]) = 37 ∧
    ackResp 0 ≠ ackResp 37 := by
  have hlen : Resp.len (Resp.Array [Resp.Bulk (ascii "replconf"),
      Resp.Bulk (ascii "getack"), Resp.Bulk (ascii "*")]) = 37 := by
    rw [← serialize_length]
    simp [serialize, serializeList, natBytes, ascii]
  refine ⟨?_, hlen, ?_⟩
  · have hp : Command.parse 0 (Resp.Array [Resp.Bulk (ascii "replconf"),
        Resp.Bulk (ascii "getack"), Resp.Bulk (ascii "*")])
        = .ok (.replconf .getAck, [Resp.Bulk (ascii "replconf"),
          Resp.Bulk (ascii "getack"), Resp.Bulk (ascii "*")]) := rfl
    simp only [slaveStep, hp]
    rw [hlen]
    rfl
  · simp [ackResp, natBytes]

/-- C3 (amended): one replica-loop iteration on the frame `resp`.  A frame
that fails to parse is skipped with the state — offset included —
unchanged.  A parsed command advances the offset by the frame's serialized
length only after the command is handled: `REPLCONF GETACK *` replies
`ACK` with the offset as it stood **before** this frame while the state
moves past it, every non-REPLCONF command replies nothing and advances the
offset the same way, and a non-GETACK REPLCONF fails the connection. -/
theorem slave_offset_added_after (now : Nat) (st : SlaveState) (resp : Resp) :
    (∀ e, Command.parse now resp = .error (.msg e) →
      slaveStep now st resp = .ok (st, none)) ∧
    (∀ raw, Command.parse now resp = .ok (.replconf .getAck, raw) →
      slaveStep now st resp
        = .ok (⟨st.db, (st.offset + Resp.len resp) % u64Mod⟩,
            some (ackResp st.offset))) ∧
    (∀ cmd raw, Command.parse now resp = .ok (cmd, raw) →
      (∀ r, cmd ≠ .replconf r) →
      (slaveStep now st resp).toOption.map (fun p => (p.1.offset, p.2))
        = some ((st.offset + Resp.len resp) % u64Mod, none)) ∧
    (∀ raw offset2, Command.parse now resp = .ok (.replconf (.ack offset2), raw) →
      slaveStep now st resp = .error "Expected getack") := by
  refine ⟨?_, ?_, ?_, ?_⟩
  · intro e h
    simp [slaveStep, h]
  · intro raw h
    simp [slaveStep, h]
  · intro cmd raw h hne
    cases cmd
    case replconf r => exact absurd rfl (hne r)
    all_goals (simp only [slaveStep, h]; rfl)
  · intro raw offset2 h
    simp [slaveStep, h]

/-- Witness for the amended C3: with offset 5, the GETACK frame replies
`ACK 5` and moves the offset to 42, and an unparsable frame leaves the
state at offset 5. -/
theorem slave_offset_added_after_witness :
    slaveStep 0 ⟨[], 5⟩ (Resp.Array [Resp.Bulk (ascii "replconf"),
        Resp.Bulk (ascii "getack"), Resp.Bulk (ascii "*")])
      = .ok (⟨[], 42⟩, some (ackResp 5)) ∧
    slaveStep 0 ⟨[], 5⟩ (Resp.Simple (ascii "OK")) = .ok (⟨[], 5⟩, none) := by
  obtain ⟨h1, h2, h3, h4⟩ := slave_offset_added_after 0 ⟨[], 5⟩
    (Resp.Array [Resp.Bulk (ascii "replconf"), Resp.Bulk (ascii "getack"),
      Resp.Bulk (ascii "*")])
  obtain ⟨g1, -, -, -⟩ := slave_offset_added_after 0 ⟨[], 5⟩ (Resp.Simple (ascii "OK"))
  have hlen : Resp.len (Resp.Array [Resp.Bulk (ascii "replconf"),
      Resp.Bulk (ascii "getack"), Resp.Bulk (ascii "*")]) = 37 := by
    rw [← serialize_length]
    simp [serialize, serializeList, natBytes, ascii]
  constructor
  · rw [h2 [Resp.Bulk (ascii "replconf"), Resp.Bulk (ascii "getack"),
      Resp.Bulk (ascii "*")] rfl, hlen]
    rfl
  · exact g1 "Unsupported RESP for command" rfl

/-- C8: counterexample.  With the transaction flag set and an empty queue,
a `GET` frame with no key — a parse failure — is answered immediately with
the error reply and nothing is queued: `Command::parse(&resp)?` propagates
out of `handle_command` before the transaction branch is reached. -/
theorem txn_parse_error_replies_immediately :
    handleCommand (fun _ _ => .ok Resp.Null) 0 ⟨[], true⟩ (Resp.Array [bulk "get"])
      = (⟨[], true⟩, .errReply "Missing key") := rfl

/-- C8 (amended): a command frame that fails to parse is answered
immediately with a RESP error reply and leaves the session state — queue
and flag — untouched, whether or not a transaction is open; with the flag
set, only a successfully parsed command (other than EXEC, MULTI and
DISCARD) is appended to the queue and answered `QUEUED`. -/
theorem parse_error_immediate (exec : Command → List Resp → Except String Resp)
    (now : Nat) (st : Session) (resp : Resp) :
    (∀ e, Command.parse now resp = .error (.msg e) →
      handleCommand exec now st resp = (st, .errReply e)) ∧
    (∀ cmd raw, st.transaction = true → Command.parse now resp = .ok (cmd, raw) →
      cmd ≠ .exec → cmd ≠ .multi → cmd ≠ .discard →
      handleCommand exec now st resp
        = ({ st with queued := st.queued ++ [(cmd, raw)] },
            .reply (simple "QUEUED"))) := by
  refine ⟨?_, ?_⟩
  · intro e h
    simp [handleCommand, h]
  · intro cmd raw ht h h1 h2 h3
    cases cmd
    case exec => exact absurd rfl h1
    case multi => exact absurd rfl h2
    case discard => exact absurd rfl h3
    all_goals simp [handleCommand, h, ht]

/-- Witness for the amended C8: inside a transaction, a key-less `INCR`
frame is answered with the parse error at once and the queue stays empty,
while a well-formed `PING` is queued and answered `QUEUED`. -/
theorem parse_error_immediate_witness :
    handleCommand (fun _ _ => .ok Resp.Null) 0 ⟨[], true⟩ (Resp.Array [bulk "incr"])
      = (⟨[], true⟩, .errReply "Missing key") ∧
    handleCommand (fun _ _ => .ok Resp.Null) 0 ⟨[], true⟩ (Resp.Array [bulk "ping"])
      = (⟨[(.ping none, [bulk "ping"])], true⟩, .reply (simple "QUEUED")) := by
  obtain ⟨h1, -⟩ := parse_error_immediate (fun _ _ => .ok Resp.Null) 0 ⟨[], true⟩
    (Resp.Array [bulk "incr"])
  obtain ⟨-, h2⟩ := parse_error_immediate (fun _ _ => .ok Resp.Null) 0 ⟨[], true⟩
    (Resp.Array [bulk "ping"])
  refine ⟨h1 "Missing key" rfl, ?_⟩
  rw [h2 (.ping none) [bulk "ping"] rfl rfl
    (by simp) (by simp) (by simp)]
  rfl

/-- C9: counterexample.  An unknown command name reaches the
`unimplemented!` arm of `Command::parse` and panics the session task
instead of producing an error reply, and an unknown RESP type prefix byte
(here `-`, the RESP error prefix this parser never reads) reaches the
`unimplemented!` arms of `Resp::check` and `Resp::parse`. -/
theorem unknown_name_or_prefix_panics :
    Command.parse 0 (Resp.Array [bulk "subscribe"]) = .error .panicked ∧
    handleCommand (fun _ _ => .ok Resp.Null) 0 ⟨[], false⟩
      (Resp.Array [bulk "subscribe"]) = (⟨[], false⟩, .panicked) ∧
    checkResp [45, 120, 13, 10] = .error .panicked ∧
    parseResp [45, 120, 13, 10] = .error .panicked :=
  ⟨rfl, rfl, rfl, rfl⟩

/-- C9 (amended): faults that `Command::parse` reports as `anyhow` errors
— a frame that is not a command array, wrong arity, and the like — are
serialized as a RESP error reply to the client with the session state kept
and the loop continuing; but an unknown command name (and the DISCARD
name, which has no parse arm) panics out of the session instead, as does
an unknown RESP type prefix byte inside the framer. -/
theorem protocol_fault_handling (exec : Command → List Resp → Except String Resp)
    (now : Nat) (st : Session) (resp : Resp) :
    (∀ e, Command.parse now resp = .error (.msg e) →
      handleCommand exec now st resp = (st, .errReply e)) ∧
    (Command.parse now resp = .error .panicked →
      handleCommand exec now st resp = (st, .panicked)) ∧
    Command.parse now (Resp.Array [bulk "exec", bulk "x"])
      = .error (.msg "ERR wrong number of arguments for 'exec' command") ∧
    Command.parse now (Resp.Integer 7) = .error (.msg "Unsupported RESP for command") := by
  refine ⟨?_, ?_, rfl, rfl⟩
  · intro e h
    simp [handleCommand, h]
  · intro h
    simp [handleCommand, h]

/-- Witness for the amended C9: a key-less `ECHO` is answered with its
parse error in place, while `DISCARD` — which `Command::parse` has no arm
for — panics the session. -/
theorem protocol_fault_handling_witness :
    handleCommand (fun _ _ => .ok Resp.Null) 0 ⟨[], false⟩
      (Resp.Array [bulk "echo"]) = (⟨[], false⟩, .errReply "Expected bulk string") ∧
    handleCommand (fun _ _ => .ok Resp.Null) 0 ⟨[], false⟩
      (Resp.Array [bulk "discard"]) = (⟨[], false⟩, .panicked) := by
  obtain ⟨h1, -, -, -⟩ := protocol_fault_handling (fun _ _ => .ok Resp.Null) 0
    ⟨[], false⟩ (Resp.Array [bulk "echo"])
  obtain ⟨-, g2, -, -⟩ := protocol_fault_handling (fun _ _ => .ok Resp.Null) 0
    ⟨[], false⟩ (Resp.Array [bulk "discard"])
  exact ⟨h1 "Expected bulk string" rfl, g2 rfl⟩
